import Mathlib

/-!
Verification of the media-recorder Apps Script backend (src/Code.js).

The JavaScript source is shallowly embedded: each backend function becomes a
Lean definition over an explicit `World` state (Drive folders/files and the
spreadsheet's sheets) and an `Env` of fault injections modelling the fallible
remote calls.  Thrown JS exceptions are modelled with the `Res` result type
(`ok` / `err`), and the `try/catch` blocks of the source become explicit
matches on `Res`.
-/

/-- ASCII lower-casing of one character; the source only lower-cases ASCII
extension/file-name text, so this models `String.prototype.toLowerCase` on the
inputs that occur. -/
def lowerChar (c : Char) : Char :=
  if 'A' ≤ c ∧ c ≤ 'Z' then Char.ofNat (c.toNat + 32) else c

/-- ASCII upper-casing of one character (models `String.prototype.toUpperCase`). -/
def upperChar (c : Char) : Char :=
  if 'a' ≤ c ∧ c ≤ 'z' then Char.ofNat (c.toNat - 32) else c

def strToLower (s : String) : String := String.mk (s.toList.map lowerChar)

def strToUpper (s : String) : String := String.mk (s.toList.map upperChar)

/-- `s.endsWith t` on the character lists (models `String.prototype.endsWith`). -/
def strEndsWith (s t : String) : Bool := t.toList.isSuffixOf s.toList

/-- JS whitespace trim, on the character list (Lean's `String.trim` is defined
by well-founded recursion, which blocks kernel evaluation). -/
def strTrim (s : String) : String :=
  String.mk (((s.toList.dropWhile Char.isWhitespace).reverse.dropWhile
    Char.isWhitespace).reverse)

/-- Characters that JavaScript's `.` (without the `s` flag) does not match. -/
def notNL (c : Char) : Bool :=
  !(c == '\n' || c == '\r' || c == '\u2028' || c == '\u2029')

/-- The literal separator of the data-URL regex `/^data:(.+?);base64,(.+)$/`. -/
def b64sep : List Char := ";base64,".toList

/-- Whether a candidate for the `(.+)$` group is acceptable: nonempty and free
of line terminators (so `.+` can span it and `$` is reached). -/
def validTail (l : List Char) : Bool := !l.isEmpty && l.all notNL

/-- Backtracking search of the lazy group `(.+?)` against `;base64,(.+)$`:
scan `l` for the first occurrence of the separator whose remainder is a valid
`(.+)$` tail; characters skipped over become part of the (lazily grown) mime
group and must not be line terminators.  Returns (mime-suffix, data). -/
def matchFrom : List Char → Option (List Char × List Char)
  | [] => none
  | c :: rest =>
    if b64sep.isPrefixOf (c :: rest) && validTail ((c :: rest).drop b64sep.length) then
      some ([], (c :: rest).drop b64sep.length)
    else if notNL c then
      match matchFrom rest with
      | some (pre, post) => some (c :: pre, post)
      | none => none
    else none

/-- The regex `/^data:(.+?);base64,(.+)$/` of `saveAudioFile`, `saveVideoFile`
and `savePhotoFile`; returns `(declared mime, base64 data)` on a match. -/
def matchDataUrl (s : String) : Option (String × String) :=
  let cs := s.toList
  if "data:".toList.isPrefixOf cs then
    match cs.drop 5 with
    | [] => none
    | c :: tl =>
      if notNL c then
        match matchFrom tl with
        | some (pre, post) => some (String.mk (c :: pre), String.mk post)
        | none => none
      else none
  else none

/-- The regex `/^data:(image\/png);base64,(.+)$/` of `saveDrawingFile`: the
mime group is the literal `image/png`. -/
def matchDrawingUrl (s : String) : Option (String × String) :=
  let cs := s.toList
  let pfx := "data:image/png;base64,".toList
  if pfx.isPrefixOf cs then
    let rest := cs.drop pfx.length
    if validTail rest then some ("image/png", String.mk rest) else none
  else none

/-- JavaScript values as far as the handlers' argument handling needs them. -/
inductive JSVal where
  | str : String → JSVal
  | num : Int → JSVal
  | boolV : Bool → JSVal
  | nullV : JSVal
  | undef : JSVal
deriving DecidableEq, Repr

/-- JavaScript truthiness. -/
def JSVal.truthy : JSVal → Bool
  | .str s => s ≠ ""
  | .num n => n ≠ 0
  | .boolV b => b
  | .nullV => false
  | .undef => false

/-- `typeof v === 'string'`. -/
def JSVal.isString : JSVal → Bool
  | .str _ => true
  | _ => false

/-- JavaScript `ToString`, as used by template literals. -/
def JSVal.toStr : JSVal → String
  | .str s => s
  | .num n => toString n
  | .boolV true => "true"
  | .boolV false => "false"
  | .nullV => "null"
  | .undef => "undefined"

example : matchDataUrl "data:audio/mp3;base64,AAAA" = some ("audio/mp3", "AAAA") := by decide
example : matchDataUrl "AAAA" = none := by decide
example : matchDataUrl "data:audio/mp3;base64," = none := by decide
example : matchDrawingUrl "data:image/jpeg;base64,AAAA" = none := by decide
example : matchDrawingUrl "data:image/png;base64,AAAA" = some ("image/png", "AAAA") := by decide
example : matchDataUrl "data:a;base64,b;base64,c" = some ("a", "b;base64,c") := by decide

/-- A Drive folder: id, name, parent id (the Drive root is folder id 0). -/
structure FolderRec where
  fid : Nat
  fname : String
  parent : Nat
deriving DecidableEq, Repr

/-- A Drive file as created by the handlers: id, name, blob mime type,
content (the base64 text for blob saves, the raw text for text saves —
no claim depends on the decoded byte values), and containing folder. -/
structure FileRec where
  fid : Nat
  name : String
  mime : String
  content : String
  folderId : Nat
deriving DecidableEq, Repr

/-- A spreadsheet cell value. -/
inductive CellVal where
  | num : Int → CellVal
  | str : String → CellVal
  | boolV : Bool → CellVal
deriving DecidableEq, Repr

/-- The history sheet `履歴`: its header row and its appended data rows.
The model assumes the header row is the widest row of the sheet (true for
every sheet this program creates), so `getLastColumn()` is `header.length`. -/
structure HistSheet where
  header : List String
  rows : List (List String)
deriving DecidableEq, Repr

/-- The settings sheet `シート1`: the subfolder-name cell B1 and the five
mode cells E1:E5. -/
structure SettingsSheet where
  b1 : CellVal
  e1 : CellVal
  e2 : CellVal
  e3 : CellVal
  e4 : CellVal
  e5 : CellVal
deriving DecidableEq, Repr

/-- The mutable backend state: the Drive tree and the spreadsheet.
`none` for a sheet means that sheet does not exist. -/
structure World where
  folders : List FolderRec
  files : List FileRec
  nextId : Nat
  histSheet : Option HistSheet
  settings : Option SettingsSheet
deriving DecidableEq, Repr

/-- Fault injections for the fallible remote calls, plus the ambient clock.
`base64Ok` tells whether `Utilities.base64Decode` accepts a given base64
string; the flags make the corresponding backend call throw. -/
structure Env where
  createFolderFail : Bool
  createFileFail : Bool
  appendRowFail : Bool
  openSSFail : Bool
  base64Ok : String → Bool
  nowStr : String

/-- Outcome of a JS computation: normal return or thrown exception, each with
the state reached (side effects persist past a throw, as in JS). -/
inductive Res (α : Type) where
  | ok : α → World → Res α
  | err : String → World → Res α
deriving Repr, DecidableEq

/-- The state reached by a computation, whether it returned or threw. -/
def Res.world : Res α → World
  | .ok _ w => w
  | .err _ w => w

/-- The data rows of the history sheet (empty when the sheet is absent). -/
def histRows (w : World) : List (List String) :=
  match w.histSheet with
  | some sh => sh.rows
  | none => []

def PARENT_FOLDER_NAME : String := "メディア保存フォルダ"
def HISTORY_HEADERS : List String :=
  ["ファイル名", "保存日時", "フォルダパス", "ファイルリンク", "ファイル形式", "メディアタイプ"]

/-- URL of a folder, as a function of its id (opaque to all claims). -/
def folderUrl (fid : Nat) : String := "https://drive.example/folder/" ++ toString fid

/-- URL of a file, as a function of its id (opaque to all claims). -/
def fileUrl (fid : Nat) : String := "https://drive.example/file/" ++ toString fid

/-- Name of a folder in the world ("" when the id is unknown; id 0 is root). -/
def folderNameOf (w : World) (fid : Nat) : String :=
  match w.folders.find? (fun f => f.fid == fid) with
  | some f => f.fname
  | none => if fid == 0 then "root" else ""

/-- First folder named `name` under `parent` (Drive returns the first match). -/
def findFolder (w : World) (parent : Nat) (name : String) : Option Nat :=
  (w.folders.find? (fun f => f.parent == parent && f.fname == name)).map (fun f => f.fid)

/-- `getOrCreateFolderIdByName` (src/Code.js:29-47): validate the name, return
the first existing child of that name, else create one (which can fail). -/
def getOrCreateFolderIdByName (env : Env) (folderName : JSVal) (parent : Nat)
    (w : World) : Res Nat :=
  if !folderName.truthy || !folderName.isString || strTrim folderName.toStr == "" then
    .err "有効なフォルダ名が指定されていません。" w
  else
    match findFolder w parent folderName.toStr with
    | some fid => .ok fid w
    | none =>
      if env.createFolderFail then
        .err ("フォルダ \"" ++ folderName.toStr ++ "\" の作成に失敗しました。") w
      else
        .ok w.nextId
          { w with
            folders := w.folders ++ [⟨w.nextId, folderName.toStr, parent⟩],
            nextId := w.nextId + 1 }

/-- `String.prototype.toString().trim()`-view of a cell value. -/
def cellToString : CellVal → String
  | .num n => toString n
  | .str s => s
  | .boolV true => "true"
  | .boolV false => "false"

/-- Sanitization of the subfolder name (src/Code.js:67): the characters
`\ / : * ? " < > |` become underscores. -/
def sanitizeName (s : String) : String :=
  String.mk (s.toList.map fun c =>
    if c ∈ ['\\', '/', ':', '*', '?', '"', '<', '>', '|'] then '_' else c)

/-- `getSubFolderNameFromSheet` (src/Code.js:52-72): best-effort read of cell
B1 of `シート1`; every failure is caught inside and yields `none`. -/
def getSubFolderNameFromSheet (env : Env) (w : World) : Option String :=
  if env.openSSFail then none
  else
    match w.settings with
    | none => none
    | some st =>
      let v := strTrim (cellToString st.b1)
      if v == "" then none else some (sanitizeName v)

/-- Writing a header cell at 1-based column `col` (`getRange(1, col).setValue`):
overwrites the existing cell, or extends the row when `col` is past the end. -/
def setHeaderCell (hs : List String) (col : Nat) (v : String) : List String :=
  if col ≤ hs.length then hs.set (col - 1) v
  else hs ++ List.replicate (col - hs.length - 1) "" ++ [v]

/-- The header migration of `createHistorySheetIfNotExists` on an existing
sheet (src/Code.js:96-113), verbatim: both column positions are computed from
the header row as it was FIRST read (`headers`), not from the sheet's current
state.  (The bold font and column widths set alongside are not modelled.) -/
def migrateHeaders (headers : List String) : List String :=
  let h1 :=
    if headers.contains "メディアタイプ" then headers
    else setHeaderCell headers (headers.length + 1) "メディアタイプ"
  if headers.contains "ファイル形式" then h1
  else
    let newCol :=
      if headers.contains "メディアタイプ" then headers.length else headers.length + 1
    setHeaderCell h1 newCol "ファイル形式"

/-- `createHistorySheetIfNotExists` (src/Code.js:77-117): create the sheet
with the six bold headers when absent, else run the header migration.
`openById` throws when the spreadsheet is unavailable. -/
def createHistorySheetIfNotExists (env : Env) (w : World) : Res Unit :=
  if env.openSSFail then .err "openById failed" w
  else
    match w.histSheet with
    | none => .ok () { w with histSheet := some ⟨HISTORY_HEADERS, []⟩ }
    | some sh => .ok () { w with histSheet := some ⟨migrateHeaders sh.header, sh.rows⟩ }

/-- `sheet.appendRow` on the history sheet; throws when the backend fails. -/
def appendHistRow (env : Env) (row : List String) (w : World) : Res Unit :=
  if env.appendRowFail then .err "appendRow failed" w
  else
    match w.histSheet with
    | some sh => .ok () { w with histSheet := some ⟨sh.header, sh.rows ++ [row]⟩ }
    | none => .err "no history sheet" w

/-- The `try` block of `addRecordToHistorySheet` (src/Code.js:123-141). -/
def addRecordBody (env : Env) (fileName folderPathText folderUrlS fileUrlS
    fileFormat mediaType : String) (w : World) : Res Unit :=
  match createHistorySheetIfNotExists env w with
  | .err e w1 => .err e w1
  | .ok _ w1 =>
    let folderLinkFormula := "=HYPERLINK(\"" ++ folderUrlS ++ "\",\"" ++ folderPathText ++ "\")"
    let fileLinkFormula := "=HYPERLINK(\"" ++ fileUrlS ++ "\",\"" ++ fileName ++ "\")"
    appendHistRow env
      [fileName, env.nowStr, folderLinkFormula, fileLinkFormula,
       strToUpper fileFormat, mediaType] w1

/-- `addRecordToHistorySheet` (src/Code.js:122-145): the whole body sits in a
`try/catch` whose handler only logs, so every failure is swallowed. -/
def addRecordToHistorySheet (env : Env) (fileName folderPathText folderUrlS fileUrlS
    fileFormat mediaType : String) (w : World) : Res Unit :=
  match addRecordBody env fileName folderPathText folderUrlS fileUrlS fileFormat mediaType w with
  | .ok _ w1 => .ok () w1
  | .err _ w1 => .ok () w1

/-- The folder-resolution block repeated in all five handlers (e.g.
src/Code.js:159-177): resolve/create the parent folder, read the subfolder
name, resolve/create the subfolder when present; yields the target folder id,
the display path text, and the target folder URL. -/
def resolveTargetFolder (env : Env) (w : World) : Res (Nat × String × String) :=
  match getOrCreateFolderIdByName env (.str PARENT_FOLDER_NAME) 0 w with
  | .err e w1 => .err e w1
  | .ok parentId w1 =>
    match getSubFolderNameFromSheet env w1 with
    | some sub =>
      match getOrCreateFolderIdByName env (.str sub) parentId w1 with
      | .err e w2 => .err e w2
      | .ok subId w2 =>
        .ok (subId, folderNameOf w2 parentId ++ " > " ++ folderNameOf w2 subId,
             folderUrl subId) w2
    | none => .ok (parentId, folderNameOf w1 parentId, folderUrl parentId) w1

/-- `targetFolder.createFile(blob)`: add the file to the world (can fail). -/
def createFileInFolder (env : Env) (folderId : Nat) (name mime content : String)
    (w : World) : Res Nat :=
  if env.createFileFail then .err "createFile failed" w
  else
    .ok w.nextId
      { w with
        files := w.files ++ [⟨w.nextId, name, mime, content, folderId⟩],
        nextId := w.nextId + 1 }

/-- The structured result every save handler returns to the client. -/
structure SaveResult where
  success : Bool
  message : String
  fileId : Option Nat
  fileName : Option String
  fileUrlR : Option String
deriving DecidableEq, Repr

/-- `v.match(...)` is only available on strings: `jsStringOf v` is `some` of
the string, `none` when calling `.match` would raise a `TypeError`. -/
def jsStringOf : JSVal → Option String
  | .str s => some s
  | _ => none

/-- A failure result with the given localized message. -/
def failResult (msg : String) : SaveResult :=
  { success := false, message := msg, fileId := none, fileName := none, fileUrlR := none }

/-- The `try` block of `saveAudioFile` (src/Code.js:151-207). -/
def saveAudioFileBody (env : Env) (audioDataUrl baseFileName : JSVal)
    (w : World) : Res SaveResult :=
  if !audioDataUrl.truthy || !audioDataUrl.isString then
    .err "音声データ (Data URL) が無効です。" w
  else if !baseFileName.truthy || !baseFileName.isString || strTrim baseFileName.toStr == "" then
    .err "ファイル名が無効です。" w
  else
    match resolveTargetFolder env w with
    | .err e w1 => .err e w1
    | .ok (targetId, folderPathText, targetFolderUrl) w1 =>
      match matchDataUrl audioDataUrl.toStr with
      | none => .err "無効なData URL形式です。" w1
      | some (mimeType, base64Data) =>
        let base := baseFileName.toStr
        let finalFileName :=
          if strEndsWith (strToLower base) ".mp3" then base else base ++ ".mp3"
        if !env.base64Ok base64Data then .err "Could not decode string." w1
        else
          match createFileInFolder env targetId finalFileName mimeType base64Data w1 with
          | .err e w2 => .err e w2
          | .ok fileId w2 =>
            match addRecordToHistorySheet env finalFileName folderPathText targetFolderUrl
                (fileUrl fileId) "MP3" "音声" w2 with
            | .err e w3 => .err e w3
            | .ok _ w3 =>
              .ok { success := true,
                    message := "音声ファイル \"" ++ finalFileName ++ "\" をフォルダ「"
                      ++ folderPathText ++ "」に保存しました。",
                    fileId := some fileId,
                    fileName := some finalFileName,
                    fileUrlR := some (fileUrl fileId) } w3

/-- `saveAudioFile` (src/Code.js:150-215): the whole body in a `try/catch`
that converts any exception into a generic localized failure result. -/
def saveAudioFile (env : Env) (audioDataUrl baseFileName : JSVal)
    (w : World) : SaveResult × World :=
  match saveAudioFileBody env audioDataUrl baseFileName w with
  | .ok r w1 => (r, w1)
  | .err _ w1 => (failResult "音声ファイルの保存中にエラーが発生しました。", w1)

/-- The allow-list validation of the video extension (src/Code.js:227-230):
`extension.toLowerCase()` throws on a non-string (modelled by `none`); a value
outside the allow-list is replaced by `webm` (original case kept otherwise). -/
def validateExt (allow : List String) (dflt : String) (ext : JSVal) : Option String :=
  match ext with
  | .str s => some (if allow.contains (strToLower s) then s else dflt)
  | _ => none

/-- The `try` block of `saveVideoFile` (src/Code.js:221-268).  The `extension`
and `mimeType` parameters default to `'webm'` / `'video/webm'` when `undefined`. -/
def saveVideoFileBody (env : Env) (videoDataUrl baseFileName extension mimeType : JSVal)
    (w : World) : Res SaveResult :=
  let extArg := if extension == JSVal.undef then JSVal.str "webm" else extension
  let mimeArg := if mimeType == JSVal.undef then JSVal.str "video/webm" else mimeType
  if !videoDataUrl.truthy || !baseFileName.truthy then
    .err "動画データまたはファイル名が無効です。" w
  else
    match validateExt ["mp4", "webm"] "webm" extArg with
    | none => .err "TypeError: extension.toLowerCase is not a function" w
    | some ext =>
      match resolveTargetFolder env w with
      | .err e w1 => .err e w1
      | .ok (targetId, folderPathText, targetFolderUrl) w1 =>
        match jsStringOf videoDataUrl with
        | some payload =>
          match matchDataUrl payload with
          | none => .err "無効なData URL形式です。" w1
          | some (detectedMimeType, base64Data) =>
            let finalFileName := baseFileName.toStr ++ "." ++ strToLower ext
            if !env.base64Ok base64Data then .err "Could not decode string." w1
            else
              let blobMime := if mimeArg.truthy then mimeArg.toStr else detectedMimeType
              match createFileInFolder env targetId finalFileName blobMime base64Data w1 with
              | .err e w2 => .err e w2
              | .ok fileId w2 =>
                match addRecordToHistorySheet env finalFileName folderPathText
                    targetFolderUrl (fileUrl fileId) ext "動画" w2 with
                | .err e w3 => .err e w3
                | .ok _ w3 =>
                  .ok { success := true,
                        message := "動画ファイル \"" ++ finalFileName ++ "\" ("
                          ++ strToUpper ext ++ "形式) をフォルダ「" ++ folderPathText
                          ++ "」に保存しました。",
                        fileId := none, fileName := none, fileUrlR := none } w3
        | none => .err "TypeError: videoDataUrl.match is not a function" w1

/-- `saveVideoFile` (src/Code.js:220-276), with its `try/catch` boundary. -/
def saveVideoFile (env : Env) (videoDataUrl baseFileName extension mimeType : JSVal)
    (w : World) : SaveResult × World :=
  match saveVideoFileBody env videoDataUrl baseFileName extension mimeType w with
  | .ok r w1 => (r, w1)
  | .err _ w1 => (failResult "動画ファイルの保存中にエラーが発生しました。", w1)

/-- The `try` block of `savePhotoFile` (src/Code.js:282-330).  The `extension`
parameter defaults to `'jpg'`; the blob uses the mime declared in the data URL. -/
def savePhotoFileBody (env : Env) (photoDataUrl baseFileName extension : JSVal)
    (w : World) : Res SaveResult :=
  let extArg := if extension == JSVal.undef then JSVal.str "jpg" else extension
  if !photoDataUrl.truthy || !baseFileName.truthy then
    .err "写真データまたはファイル名が無効です。" w
  else
    match validateExt ["jpg", "jpeg", "png"] "jpg" extArg with
    | none => .err "TypeError: extension.toLowerCase is not a function" w
    | some ext =>
      match resolveTargetFolder env w with
      | .err e w1 => .err e w1
      | .ok (targetId, folderPathText, targetFolderUrl) w1 =>
        match jsStringOf photoDataUrl with
        | some payload =>
          match matchDataUrl payload with
          | none => .err "無効なData URL形式です。" w1
          | some (detectedMimeType, base64Data) =>
            let finalFileName := baseFileName.toStr ++ "." ++ strToLower ext
            if !env.base64Ok base64Data then .err "Could not decode string." w1
            else
              match createFileInFolder env targetId finalFileName detectedMimeType
                  base64Data w1 with
              | .err e w2 => .err e w2
              | .ok fileId w2 =>
                let formatDisplay := if strToUpper ext == "JPEG" then "JPG" else strToUpper ext
                match addRecordToHistorySheet env finalFileName folderPathText
                    targetFolderUrl (fileUrl fileId) formatDisplay "写真" w2 with
                | .err e w3 => .err e w3
                | .ok _ w3 =>
                  .ok { success := true,
                        message := "写真ファイル \"" ++ finalFileName ++ "\" ("
                          ++ formatDisplay ++ "形式) をフォルダ「" ++ folderPathText
                          ++ "」に保存しました。",
                        fileId := none, fileName := none, fileUrlR := none } w3
        | none => .err "TypeError: photoDataUrl.match is not a function" w1

/-- `savePhotoFile` (src/Code.js:281-338), with its `try/catch` boundary. -/
def savePhotoFile (env : Env) (photoDataUrl baseFileName extension : JSVal)
    (w : World) : SaveResult × World :=
  match savePhotoFileBody env photoDataUrl baseFileName extension w with
  | .ok r w1 => (r, w1)
  | .err _ w1 => (failResult "写真ファイルの保存中にエラーが発生しました。", w1)

/-- The `try` block of `saveDrawingFile` (src/Code.js:344-385): the data URL
must declare exactly `image/png`; the file name is forced to `.png`. -/
def saveDrawingFileBody (env : Env) (drawingDataUrl baseFileName : JSVal)
    (w : World) : Res SaveResult :=
  if !drawingDataUrl.truthy || !baseFileName.truthy then
    .err "お絵かきデータまたはファイル名が無効です。" w
  else
    match resolveTargetFolder env w with
    | .err e w1 => .err e w1
    | .ok (targetId, folderPathText, targetFolderUrl) w1 =>
      match jsStringOf drawingDataUrl with
      | some payload =>
        match matchDrawingUrl payload with
        | none => .err "無効なData URL形式です。PNG形式である必要があります。" w1
        | some (mimeType, base64Data) =>
          let finalFileName := baseFileName.toStr ++ ".png"
          if !env.base64Ok base64Data then .err "Could not decode string." w1
          else
            match createFileInFolder env targetId finalFileName mimeType base64Data w1 with
            | .err e w2 => .err e w2
            | .ok fileId w2 =>
              match addRecordToHistorySheet env finalFileName folderPathText
                  targetFolderUrl (fileUrl fileId) "PNG" "お絵かき" w2 with
              | .err e w3 => .err e w3
              | .ok _ w3 =>
                .ok { success := true,
                      message := "お絵かきファイル \"" ++ finalFileName
                        ++ "\" (PNG形式) をフォルダ「" ++ folderPathText
                        ++ "」に保存しました。",
                      fileId := none, fileName := none, fileUrlR := none } w3
      | none => .err "TypeError: drawingDataUrl.match is not a function" w1

/-- `saveDrawingFile` (src/Code.js:343-393), with its `try/catch` boundary. -/
def saveDrawingFile (env : Env) (drawingDataUrl baseFileName : JSVal)
    (w : World) : SaveResult × World :=
  match saveDrawingFileBody env drawingDataUrl baseFileName w with
  | .ok r w1 => (r, w1)
  | .err _ w1 => (failResult "お絵かきファイルの保存中にエラーが発生しました。", w1)

/-- The `try` block of `saveTextFile` (src/Code.js:399-436): the text is the
file content verbatim, the name is forced to `.txt`, the mime is text/plain. -/
def saveTextFileBody (env : Env) (textData baseFileName : JSVal)
    (w : World) : Res SaveResult :=
  if !textData.truthy || !textData.isString then
    .err "テキストデータが無効です。" w
  else if !baseFileName.truthy || !baseFileName.isString || strTrim baseFileName.toStr == "" then
    .err "ファイル名が無効です。" w
  else
    match resolveTargetFolder env w with
    | .err e w1 => .err e w1
    | .ok (targetId, folderPathText, targetFolderUrl) w1 =>
      let finalFileName := baseFileName.toStr ++ ".txt"
      match createFileInFolder env targetId finalFileName "text/plain" textData.toStr w1 with
      | .err e w2 => .err e w2
      | .ok fileId w2 =>
        match addRecordToHistorySheet env finalFileName folderPathText targetFolderUrl
            (fileUrl fileId) "TXT" "テキスト" w2 with
        | .err e w3 => .err e w3
        | .ok _ w3 =>
          .ok { success := true,
                message := "テキストファイル \"" ++ finalFileName ++ "\" をフォルダ「"
                  ++ folderPathText ++ "」に保存しました。",
                fileId := none, fileName := none, fileUrlR := none } w3

/-- `saveTextFile` (src/Code.js:398-444), with its `try/catch` boundary. -/
def saveTextFile (env : Env) (textData baseFileName : JSVal)
    (w : World) : SaveResult × World :=
  match saveTextFileBody env textData baseFileName w with
  | .ok r w1 => (r, w1)
  | .err _ w1 => (failResult "テキストファイルの保存中にエラーが発生しました。", w1)

/-- The object `getModeSettings` returns; `error` is the optional annotation
attached on the fail-open paths. -/
structure ModeSettings where
  audio : Bool
  video : Bool
  photo : Bool
  drawing : Bool
  text : Bool
  error : Option String
deriving DecidableEq, Repr

/-- All five modes visible, with an error annotation (the fail-open default). -/
def allModesOn (e : Option String) : ModeSettings :=
  { audio := true, video := true, photo := true, drawing := true, text := true, error := e }

/-- Decimal-integer fragment of JavaScript `ToNumber` on strings: optional
sign plus digits (`none` = NaN).  The sheet cells this program reads hold
integers, booleans or plain text; non-integer numeric notations such as
`"1e0"` are not modelled. -/
def digitsToNat (cs : List Char) : Option Nat :=
  if cs.isEmpty then none
  else if cs.all (fun c => c.isDigit) then
    some (cs.foldl (fun acc c => acc * 10 + (c.toNat - 48)) 0)
  else none

/-- JavaScript `ToNumber` on a trimmed string (integer literals; "" is 0). -/
def strToNumInt (s : String) : Option Int :=
  let t := strTrim s
  if t == "" then some 0
  else
    match t.toList with
    | '-' :: ds => (digitsToNat ds).map (fun n => -(n : Int))
    | '+' :: ds => (digitsToNat ds).map (fun n => (n : Int))
    | ds => (digitsToNat ds).map (fun n => (n : Int))

/-- The loose comparison `value == 1` applied to each mode cell
(src/Code.js:494-498). -/
def jsEqOne : CellVal → Bool
  | .num n => n == 1
  | .boolV b => b
  | .str s => strToNumInt s == some 1

/-- `getModeSettings` (src/Code.js:482-518): read E1:E5 of `シート1` as five
flags via `== 1`; missing sheet or a read error fail open to all-true with an
error annotation; if all five read false, force-write 1 into E1 and report
audio visible. -/
def getModeSettings (env : Env) (w : World) : ModeSettings × World :=
  if env.openSSFail then (allModesOn (some "Exception: openById failed"), w)
  else
    match w.settings with
    | none => (allModesOn (some "Sheet \"シート1\" not found."), w)
    | some st =>
      let audioVisible := jsEqOne st.e1
      let videoVisible := jsEqOne st.e2
      let photoVisible := jsEqOne st.e3
      let drawingVisible := jsEqOne st.e4
      let textVisible := jsEqOne st.e5
      if !audioVisible && !videoVisible && !photoVisible && !drawingVisible && !textVisible then
        ({ audio := true, video := videoVisible, photo := photoVisible,
           drawing := drawingVisible, text := textVisible, error := none },
         { w with settings := some { st with e1 := .num 1 } })
      else
        ({ audio := audioVisible, video := videoVisible, photo := photoVisible,
           drawing := drawingVisible, text := textVisible, error := none }, w)

/-- An environment in which every backend call succeeds. -/
def goodEnv : Env :=
  { createFolderFail := false, createFileFail := false, appendRowFail := false,
    openSSFail := false, base64Ok := fun _ => true, nowStr := "2026/10/11 00:00:00" }

/-- `goodEnv` except that the history-row append fails. -/
def appendFailEnv : Env := { goodEnv with appendRowFail := true }

/-- A fresh deployment: no folders, no files, no sheets. -/
def w0 : World :=
  { folders := [], files := [], nextId := 1, histSheet := none, settings := none }

example :
    (saveAudioFile goodEnv (.str "data:audio/mp3;base64,AAAA") (.str "note") w0).1.success
      = true := by decide
example :
    ((saveAudioFile goodEnv (.str "data:audio/mp3;base64,AAAA") (.str "note") w0).2.files.map
      (fun f => f.name)) = ["note.mp3"] := by decide
example :
    histRows (saveAudioFile goodEnv (.str "data:audio/mp3;base64,AAAA") (.str "note") w0).2
      = [["note.mp3", "2026/10/11 00:00:00",
          "=HYPERLINK(\"https://drive.example/folder/1\",\"メディア保存フォルダ\")",
          "=HYPERLINK(\"https://drive.example/file/2\",\"note.mp3\")", "MP3", "音声"]] := by
  decide
example :
    (saveVideoFile goodEnv (.str "data:video/webm;base64,AAAA") (.str "clip")
      (.str "mkv") .undef w0).1.success = true := by decide
example :
    ((saveVideoFile goodEnv (.str "data:video/webm;base64,AAAA") (.str "clip")
      (.str "mkv") .undef w0).2.files.map (fun f => f.name)) = ["clip.webm"] := by decide

theorem getOrCreate_frame (env : Env) (n : JSVal) (par : Nat) (w : World) :
    ((getOrCreateFolderIdByName env n par w).world).files = w.files ∧
    ((getOrCreateFolderIdByName env n par w).world).histSheet = w.histSheet ∧
    ((getOrCreateFolderIdByName env n par w).world).settings = w.settings := by
  unfold getOrCreateFolderIdByName
  split
  · exact ⟨rfl, rfl, rfl⟩
  · split
    · exact ⟨rfl, rfl, rfl⟩
    · split
      · exact ⟨rfl, rfl, rfl⟩
      · exact ⟨rfl, rfl, rfl⟩

theorem resolveTargetFolder_frame (env : Env) (w : World) :
    ((resolveTargetFolder env w).world).files = w.files ∧
    ((resolveTargetFolder env w).world).histSheet = w.histSheet ∧
    ((resolveTargetFolder env w).world).settings = w.settings := by
  have h1 := getOrCreate_frame env (.str PARENT_FOLDER_NAME) 0 w
  unfold resolveTargetFolder
  rcases hp : getOrCreateFolderIdByName env (.str PARENT_FOLDER_NAME) 0 w with ⟨pid, w1⟩ | ⟨e, w1⟩ <;>
    rw [hp] at h1 <;> simp only [Res.world] at h1
  · rcases hs : getSubFolderNameFromSheet env w1 with _ | sub
    · simp only [hp, hs, Res.world]
      exact h1
    · have h2 := getOrCreate_frame env (.str sub) pid w1
      rcases hq : getOrCreateFolderIdByName env (.str sub) pid w1 with ⟨sid, w2⟩ | ⟨e2, w2⟩ <;>
        rw [hq] at h2 <;> simp only [Res.world] at h2 <;>
        simp only [hp, hs, hq, Res.world] <;>
        exact ⟨h2.1.trans h1.1, h2.2.1.trans h1.2.1, h2.2.2.trans h1.2.2⟩
  · simp only [hp, Res.world]
    exact h1

theorem createFile_frame (env : Env) (fid : Nat) (n m c : String) (w : World) :
    ((createFileInFolder env fid n m c w).world).folders = w.folders ∧
    ((createFileInFolder env fid n m c w).world).histSheet = w.histSheet ∧
    ((createFileInFolder env fid n m c w).world).settings = w.settings := by
  unfold createFileInFolder
  split
  · exact ⟨rfl, rfl, rfl⟩
  · exact ⟨rfl, rfl, rfl⟩

theorem createHistorySheet_frame (env : Env) (w : World) :
    ((createHistorySheetIfNotExists env w).world).files = w.files ∧
    ((createHistorySheetIfNotExists env w).world).folders = w.folders ∧
    ((createHistorySheetIfNotExists env w).world).settings = w.settings := by
  unfold createHistorySheetIfNotExists
  split
  · exact ⟨rfl, rfl, rfl⟩
  · split
    · exact ⟨rfl, rfl, rfl⟩
    · exact ⟨rfl, rfl, rfl⟩

theorem appendHistRow_frame (env : Env) (row : List String) (w : World) :
    ((appendHistRow env row w).world).files = w.files ∧
    ((appendHistRow env row w).world).folders = w.folders ∧
    ((appendHistRow env row w).world).settings = w.settings := by
  unfold appendHistRow
  split
  · exact ⟨rfl, rfl, rfl⟩
  · split
    · exact ⟨rfl, rfl, rfl⟩
    · exact ⟨rfl, rfl, rfl⟩

/-- `addRecordToHistorySheet` never throws: its internal catch converts every
failure into a plain return. -/
theorem addRecord_never_throws (env : Env)
    (a b c d e f : String) (w : World) :
    ∃ w1, addRecordToHistorySheet env a b c d e f w = .ok () w1 := by
  unfold addRecordToHistorySheet
  rcases h : addRecordBody env a b c d e f w with ⟨u, w1⟩ | ⟨msg, w1⟩ <;>
    simp only [h] <;> exact ⟨w1, rfl⟩

theorem addRecordBody_frame (env : Env) (a b c d e f : String) (w : World) :
    ((addRecordBody env a b c d e f w).world).files = w.files ∧
    ((addRecordBody env a b c d e f w).world).folders = w.folders ∧
    ((addRecordBody env a b c d e f w).world).settings = w.settings := by
  have h1 := createHistorySheet_frame env w
  unfold addRecordBody
  rcases hc : createHistorySheetIfNotExists env w with ⟨u, w1⟩ | ⟨msg, w1⟩ <;>
    rw [hc] at h1 <;> simp only [Res.world] at h1
  · have h2 := appendHistRow_frame env
      [a, env.nowStr, "=HYPERLINK(\"" ++ c ++ "\",\"" ++ b ++ "\")",
       "=HYPERLINK(\"" ++ d ++ "\",\"" ++ a ++ "\")", strToUpper e, f] w1
    rcases ha : appendHistRow env
        [a, env.nowStr, "=HYPERLINK(\"" ++ c ++ "\",\"" ++ b ++ "\")",
         "=HYPERLINK(\"" ++ d ++ "\",\"" ++ a ++ "\")", strToUpper e, f] w1 with
      ⟨u2, w2⟩ | ⟨m2, w2⟩ <;>
      rw [ha] at h2 <;> simp only [Res.world] at h2 <;>
      simp only [hc, ha, Res.world] <;>
      exact ⟨h2.1.trans h1.1, h2.2.1.trans h1.2.1, h2.2.2.trans h1.2.2⟩
  · simp only [hc, Res.world]
    exact h1

theorem addRecord_frame (env : Env) (a b c d e f : String) (w : World) :
    ((addRecordToHistorySheet env a b c d e f w).world).files = w.files ∧
    ((addRecordToHistorySheet env a b c d e f w).world).folders = w.folders ∧
    ((addRecordToHistorySheet env a b c d e f w).world).settings = w.settings := by
  have h1 := addRecordBody_frame env a b c d e f w
  unfold addRecordToHistorySheet
  rcases h : addRecordBody env a b c d e f w with ⟨u, w1⟩ | ⟨m, w1⟩ <;>
    rw [h] at h1 <;> simp only [Res.world] at h1 <;> simp only [h, Res.world] <;> exact h1

theorem b64sep_cons : b64sep = ';' :: "base64,".toList := rfl

/-- A scan step over a non-separator, non-terminator character. -/
theorem matchFrom_cons_ne (c : Char) (l : List Char) (hc : notNL c = true) (hne : c ≠ ';') :
    matchFrom (c :: l) =
      match matchFrom l with
      | some (pre, post) => some (c :: pre, post)
      | none => none := by
  have hb : (';' == c) = false := by
    simp only [beq_eq_false_iff_ne, ne_eq]
    exact fun h => hne h.symm
  have hsep : b64sep.isPrefixOf (c :: l) = false := by
    rw [b64sep_cons]
    show ((';' == c) && List.isPrefixOf "base64,".toList l) = false
    rw [hb, Bool.false_and]
  conv_lhs => rw [matchFrom.eq_def]
  simp [hsep, hc]

/-- The scan succeeds immediately at a separator with a valid tail. -/
theorem matchFrom_at_sep (post : List Char) (hpost : validTail post = true) :
    matchFrom (b64sep ++ post) = some ([], post) := by
  have hpre : b64sep <+: ';' :: 'b' :: 'a' :: 's' :: 'e' :: '6' :: '4' :: ',' :: post :=
    List.prefix_append b64sep post
  have hdrop :
      List.drop b64sep.length (';' :: 'b' :: 'a' :: 's' :: 'e' :: '6' :: '4' :: ',' :: post)
        = post :=
    List.drop_left b64sep post
  rw [show b64sep ++ post = ';' :: ("base64,".toList ++ post) from rfl]
  conv_lhs => rw [matchFrom.eq_def]
  simp [hpre, hdrop, hpost]

/-- When the strict drawing regex matches, the general data-URL regex matches
with declared mime exactly `image/png` and the same data group. -/
theorem matchDataUrl_of_drawing (p : String) (m d : String)
    (h : matchDrawingUrl p = some (m, d)) :
    matchDataUrl p = some ("image/png", d) := by
  unfold matchDrawingUrl at h
  dsimp only at h
  split at h
  case isFalse => exact absurd h (by simp)
  case isTrue hpf =>
    split at h
    case isFalse => exact absurd h (by simp)
    case isTrue hvt =>
      have hp : "data:image/png;base64,".toList <+: p.toList := by
        simp at hpf
        exact hpf
      obtain ⟨t, ht⟩ := hp
      have hrest : p.toList.drop ("data:image/png;base64,".toList).length = t := by
        rw [← ht]
        exact List.drop_left _ _
      rw [hrest] at h hvt
      have hd : d = String.mk t := by
        have := h
        simp only [Option.some.injEq, Prod.mk.injEq] at this
        exact this.2.symm
      have has : p.toList
          = 'd' :: 'a' :: 't' :: 'a' :: ':' ::
            ('i' :: 'm' :: 'a' :: 'g' :: 'e' :: '/' :: 'p' :: 'n' :: 'g' :: (b64sep ++ t)) := by
        rw [← ht]
        rfl
      have h0 := matchFrom_at_sep t hvt
      have h1 := matchFrom_cons_ne 'g' (b64sep ++ t) (by decide) (by decide)
      simp only [h0] at h1
      have h2 := matchFrom_cons_ne 'n' ('g' :: (b64sep ++ t)) (by decide) (by decide)
      simp only [h1] at h2
      have h3 := matchFrom_cons_ne 'p' ('n' :: 'g' :: (b64sep ++ t)) (by decide) (by decide)
      simp only [h2] at h3
      have h4 := matchFrom_cons_ne '/' ('p' :: 'n' :: 'g' :: (b64sep ++ t)) (by decide) (by decide)
      simp only [h3] at h4
      have h5 := matchFrom_cons_ne 'e' ('/' :: 'p' :: 'n' :: 'g' :: (b64sep ++ t)) (by decide) (by decide)
      simp only [h4] at h5
      have h6 := matchFrom_cons_ne 'g' ('e' :: '/' :: 'p' :: 'n' :: 'g' :: (b64sep ++ t)) (by decide) (by decide)
      simp only [h5] at h6
      have h7 := matchFrom_cons_ne 'a' ('g' :: 'e' :: '/' :: 'p' :: 'n' :: 'g' :: (b64sep ++ t)) (by decide) (by decide)
      simp only [h6] at h7
      have h8 := matchFrom_cons_ne 'm' ('a' :: 'g' :: 'e' :: '/' :: 'p' :: 'n' :: 'g' :: (b64sep ++ t)) (by decide) (by decide)
      simp only [h7] at h8
      have hpf5 : "data:".toList.isPrefixOf p.toList = true := by
        rw [has]
        have hx : "data:".toList <+:
            'd' :: 'a' :: 't' :: 'a' :: ':' ::
              ('i' :: 'm' :: 'a' :: 'g' :: 'e' :: '/' :: 'p' :: 'n' :: 'g' :: (b64sep ++ t)) :=
          List.prefix_append "data:".toList _
        simp only [List.isPrefixOf_iff_prefix]
        exact hx
      unfold matchDataUrl
      dsimp only
      rw [if_pos (by simpa using hpf5)]
      rw [has]
      show (match
          ('i' :: 'm' :: 'a' :: 'g' :: 'e' :: '/' :: 'p' :: 'n' :: 'g' :: (b64sep ++ t)) with
        | [] => none
        | c :: tl =>
          if notNL c then
            match matchFrom tl with
            | some (pre, post) => some (String.mk (c :: pre), String.mk post)
            | none => none
          else none) = some ("image/png", d)
      dsimp only
      rw [if_pos (show notNL 'i' = true from rfl), h8, hd]

/-- If the general data-URL pattern rejects a payload, so does the strict
drawing pattern. -/
theorem matchDrawingUrl_none_of_dataUrl_none (p : String) (h : matchDataUrl p = none) :
    matchDrawingUrl p = none := by
  cases hd : matchDrawingUrl p with
  | none => rfl
  | some md =>
    obtain ⟨m, d⟩ := md
    have h2 := matchDataUrl_of_drawing p m d hd
    rw [h] at h2
    cases h2

/-- A payload whose declared mime is not exactly `image/png` is rejected by
the drawing pattern. -/
theorem matchDrawingUrl_none_of_other_mime (p m d : String)
    (h : matchDataUrl p = some (m, d)) (hne : m ≠ "image/png") :
    matchDrawingUrl p = none := by
  cases hd : matchDrawingUrl p with
  | none => rfl
  | some md =>
    obtain ⟨m2, d2⟩ := md
    have h2 := matchDataUrl_of_drawing p m2 d2 hd
    rw [h] at h2
    simp only [Option.some.injEq, Prod.mk.injEq] at h2
    exact absurd h2.1 hne

/-- A failing `createFile` call leaves the world untouched. -/
theorem createFile_err_world (env : Env) (fid : Nat) (n m c : String) (w : World)
    (e : String) (w1 : World) (h : createFileInFolder env fid n m c w = .err e w1) :
    w1 = w := by
  unfold createFileInFolder at h
  split at h
  · simp only [Res.err.injEq] at h
    exact h.2.symm
  · exact Res.noConfusion h

/-- Every `ok` result the audio body produces announces success. -/
theorem saveAudioFileBody_ok_success (env : Env) (p b : JSVal) (w : World)
    (r : SaveResult) (w1 : World) (h : saveAudioFileBody env p b w = .ok r w1) :
    r.success = true := by
  unfold saveAudioFileBody at h
  split at h
  · exact Res.noConfusion h
  · split at h
    · exact Res.noConfusion h
    · split at h
      · exact Res.noConfusion h
      · split at h
        · exact Res.noConfusion h
        · split at h
          · exact Res.noConfusion h
          · dsimp only at h
            split at h
            · exact Res.noConfusion h
            · split at h
              · exact Res.noConfusion h
              · simp only [Res.ok.injEq] at h
                rw [← h.1]

/-- When the audio body throws, no file was created and no history row was
appended (folders may have been created along the way). -/
theorem saveAudioFileBody_err_frame (env : Env) (p b : JSVal) (w : World)
    (e : String) (w1 : World) (h : saveAudioFileBody env p b w = .err e w1) :
    w1.files = w.files ∧ histRows w1 = histRows w := by
  unfold saveAudioFileBody at h
  split at h
  · simp only [Res.err.injEq] at h
    rw [← h.2]
    exact ⟨rfl, rfl⟩
  · split at h
    · simp only [Res.err.injEq] at h
      rw [← h.2]
      exact ⟨rfl, rfl⟩
    · split at h
      · rename_i er wr heq
        have hf := resolveTargetFolder_frame env w
        rw [heq] at hf
        simp only [Res.world] at hf
        simp only [Res.err.injEq] at h
        rw [← h.2]
        exact ⟨hf.1, by unfold histRows; rw [hf.2.1]⟩
      · rename_i tid pt tu wr heq
        have hf := resolveTargetFolder_frame env w
        rw [heq] at hf
        simp only [Res.world] at hf
        have hfr : wr.files = w.files ∧ histRows wr = histRows w :=
          ⟨hf.1, by unfold histRows; rw [hf.2.1]⟩
        split at h
        · simp only [Res.err.injEq] at h
          rw [← h.2]
          exact hfr
        · split at h
          · simp only [Res.err.injEq] at h
            rw [← h.2]
            exact hfr
          · dsimp only at h
            split at h
            · rename_i e2 w2 heq3
              have hw2 := createFile_err_world env tid _ _ _ wr e2 w2 heq3
              simp only [Res.err.injEq] at h
              rw [← h.2, hw2]
              exact hfr
            · rename_i fid w2 heq3
              split at h
              · rename_i e3 w3 heq4
                obtain ⟨w4, h4⟩ := addRecord_never_throws env _ _ _ _ "MP3" "音声" w2
                rw [h4] at heq4
                exact Res.noConfusion heq4
              · exact Res.noConfusion h

/-- Every `ok` result the video body produces announces success. -/
theorem saveVideoFileBody_ok_success (env : Env) (p b ext mt : JSVal) (w : World)
    (r : SaveResult) (w1 : World) (h : saveVideoFileBody env p b ext mt w = .ok r w1) :
    r.success = true := by
  unfold saveVideoFileBody at h
  dsimp only at h
  split at h
  · exact Res.noConfusion h
  · split at h
    · exact Res.noConfusion h
    · split at h
      · exact Res.noConfusion h
      · split at h
        · split at h
          · exact Res.noConfusion h
          · split at h
            · exact Res.noConfusion h
            · split at h
              · exact Res.noConfusion h
              · split at h
                · exact Res.noConfusion h
                · simp only [Res.ok.injEq] at h
                  rw [← h.1]
        · exact Res.noConfusion h

/-- When the video body throws, no file was created and no history row was
appended. -/
theorem saveVideoFileBody_err_frame (env : Env) (p b ext mt : JSVal) (w : World)
    (e : String) (w1 : World) (h : saveVideoFileBody env p b ext mt w = .err e w1) :
    w1.files = w.files ∧ histRows w1 = histRows w := by
  unfold saveVideoFileBody at h
  dsimp only at h
  split at h
  · simp only [Res.err.injEq] at h
    rw [← h.2]
    exact ⟨rfl, rfl⟩
  · split at h
    · simp only [Res.err.injEq] at h
      rw [← h.2]
      exact ⟨rfl, rfl⟩
    · split at h
      · rename_i er wr heq
        have hf := resolveTargetFolder_frame env w
        rw [heq] at hf
        simp only [Res.world] at hf
        simp only [Res.err.injEq] at h
        rw [← h.2]
        exact ⟨hf.1, by unfold histRows; rw [hf.2.1]⟩
      · rename_i tid pt tu wr heq
        have hf := resolveTargetFolder_frame env w
        rw [heq] at hf
        simp only [Res.world] at hf
        have hfr : wr.files = w.files ∧ histRows wr = histRows w :=
          ⟨hf.1, by unfold histRows; rw [hf.2.1]⟩
        split at h
        · split at h
          · simp only [Res.err.injEq] at h
            rw [← h.2]
            exact hfr
          · split at h
            · simp only [Res.err.injEq] at h
              rw [← h.2]
              exact hfr
            · split at h
              · rename_i e2 w2 heq3
                have hw2 := createFile_err_world env tid _ _ _ wr e2 w2 heq3
                simp only [Res.err.injEq] at h
                rw [← h.2, hw2]
                exact hfr
              · rename_i fid w2 heq3
                split at h
                · rename_i e3 w3 heq4
                  obtain ⟨w4, h4⟩ := addRecord_never_throws env _ _ _ _ _ "動画" w2
                  rw [h4] at heq4
                  exact Res.noConfusion heq4
                · exact Res.noConfusion h
        · simp only [Res.err.injEq] at h
          rw [← h.2]
          exact hfr

/-- Every `ok` result the photo body produces announces success. -/
theorem savePhotoFileBody_ok_success (env : Env) (p b ext : JSVal) (w : World)
    (r : SaveResult) (w1 : World) (h : savePhotoFileBody env p b ext w = .ok r w1) :
    r.success = true := by
  unfold savePhotoFileBody at h
  dsimp only at h
  split at h
  · exact Res.noConfusion h
  · split at h
    · exact Res.noConfusion h
    · split at h
      · exact Res.noConfusion h
      · split at h
        · split at h
          · exact Res.noConfusion h
          · split at h
            · exact Res.noConfusion h
            · split at h
              · exact Res.noConfusion h
              · split at h
                · exact Res.noConfusion h
                · simp only [Res.ok.injEq] at h
                  rw [← h.1]
        · exact Res.noConfusion h

/-- When the photo body throws, no file was created and no history row was
appended. -/
theorem savePhotoFileBody_err_frame (env : Env) (p b ext : JSVal) (w : World)
    (e : String) (w1 : World) (h : savePhotoFileBody env p b ext w = .err e w1) :
    w1.files = w.files ∧ histRows w1 = histRows w := by
  unfold savePhotoFileBody at h
  dsimp only at h
  split at h
  · simp only [Res.err.injEq] at h
    rw [← h.2]
    exact ⟨rfl, rfl⟩
  · split at h
    · simp only [Res.err.injEq] at h
      rw [← h.2]
      exact ⟨rfl, rfl⟩
    · split at h
      · rename_i er wr heq
        have hf := resolveTargetFolder_frame env w
        rw [heq] at hf
        simp only [Res.world] at hf
        simp only [Res.err.injEq] at h
        rw [← h.2]
        exact ⟨hf.1, by unfold histRows; rw [hf.2.1]⟩
      · rename_i tid pt tu wr heq
        have hf := resolveTargetFolder_frame env w
        rw [heq] at hf
        simp only [Res.world] at hf
        have hfr : wr.files = w.files ∧ histRows wr = histRows w :=
          ⟨hf.1, by unfold histRows; rw [hf.2.1]⟩
        split at h
        · split at h
          · simp only [Res.err.injEq] at h
            rw [← h.2]
            exact hfr
          · split at h
            · simp only [Res.err.injEq] at h
              rw [← h.2]
              exact hfr
            · split at h
              · rename_i e2 w2 heq3
                have hw2 := createFile_err_world env tid _ _ _ wr e2 w2 heq3
                simp only [Res.err.injEq] at h
                rw [← h.2, hw2]
                exact hfr
              · rename_i fid w2 heq3
                split at h
                · rename_i e3 w3 heq4
                  obtain ⟨w4, h4⟩ := addRecord_never_throws env _ _ _ _ _ "写真" w2
                  rw [h4] at heq4
                  exact Res.noConfusion heq4
                · exact Res.noConfusion h
        · simp only [Res.err.injEq] at h
          rw [← h.2]
          exact hfr

/-- Every `ok` result the drawing body produces announces success. -/
theorem saveDrawingFileBody_ok_success (env : Env) (p b : JSVal) (w : World)
    (r : SaveResult) (w1 : World) (h : saveDrawingFileBody env p b w = .ok r w1) :
    r.success = true := by
  unfold saveDrawingFileBody at h
  split at h
  · exact Res.noConfusion h
  · split at h
    · exact Res.noConfusion h
    · split at h
      · split at h
        · exact Res.noConfusion h
        · dsimp only at h
          split at h
          · exact Res.noConfusion h
          · split at h
            · exact Res.noConfusion h
            · split at h
              · exact Res.noConfusion h
              · simp only [Res.ok.injEq] at h
                rw [← h.1]
      · exact Res.noConfusion h

/-- When the drawing body throws, no file was created and no history row was
appended. -/
theorem saveDrawingFileBody_err_frame (env : Env) (p b : JSVal) (w : World)
    (e : String) (w1 : World) (h : saveDrawingFileBody env p b w = .err e w1) :
    w1.files = w.files ∧ histRows w1 = histRows w := by
  unfold saveDrawingFileBody at h
  split at h
  · simp only [Res.err.injEq] at h
    rw [← h.2]
    exact ⟨rfl, rfl⟩
  · split at h
    · rename_i er wr heq
      have hf := resolveTargetFolder_frame env w
      rw [heq] at hf
      simp only [Res.world] at hf
      simp only [Res.err.injEq] at h
      rw [← h.2]
      exact ⟨hf.1, by unfold histRows; rw [hf.2.1]⟩
    · rename_i tid pt tu wr heq
      have hf := resolveTargetFolder_frame env w
      rw [heq] at hf
      simp only [Res.world] at hf
      have hfr : wr.files = w.files ∧ histRows wr = histRows w :=
        ⟨hf.1, by unfold histRows; rw [hf.2.1]⟩
      split at h
      · split at h
        · simp only [Res.err.injEq] at h
          rw [← h.2]
          exact hfr
        · dsimp only at h
          split at h
          · simp only [Res.err.injEq] at h
            rw [← h.2]
            exact hfr
          · split at h
            · rename_i e2 w2 heq3
              have hw2 := createFile_err_world env tid _ _ _ wr e2 w2 heq3
              simp only [Res.err.injEq] at h
              rw [← h.2, hw2]
              exact hfr
            · rename_i fid w2 heq3
              split at h
              · rename_i e3 w3 heq4
                obtain ⟨w4, h4⟩ := addRecord_never_throws env _ _ _ _ _ "お絵かき" w2
                rw [h4] at heq4
                exact Res.noConfusion heq4
              · exact Res.noConfusion h
      · simp only [Res.err.injEq] at h
        rw [← h.2]
        exact hfr

/-- Every `ok` result the text body produces announces success. -/
theorem saveTextFileBody_ok_success (env : Env) (p b : JSVal) (w : World)
    (r : SaveResult) (w1 : World) (h : saveTextFileBody env p b w = .ok r w1) :
    r.success = true := by
  unfold saveTextFileBody at h
  split at h
  · exact Res.noConfusion h
  · split at h
    · exact Res.noConfusion h
    · split at h
      · exact Res.noConfusion h
      · dsimp only at h
        split at h
        · exact Res.noConfusion h
        · split at h
          · exact Res.noConfusion h
          · simp only [Res.ok.injEq] at h
            rw [← h.1]

/-- When the text body throws, no file was created and no history row was
appended. -/
theorem saveTextFileBody_err_frame (env : Env) (p b : JSVal) (w : World)
    (e : String) (w1 : World) (h : saveTextFileBody env p b w = .err e w1) :
    w1.files = w.files ∧ histRows w1 = histRows w := by
  unfold saveTextFileBody at h
  split at h
  · simp only [Res.err.injEq] at h
    rw [← h.2]
    exact ⟨rfl, rfl⟩
  · split at h
    · simp only [Res.err.injEq] at h
      rw [← h.2]
      exact ⟨rfl, rfl⟩
    · split at h
      · rename_i er wr heq
        have hf := resolveTargetFolder_frame env w
        rw [heq] at hf
        simp only [Res.world] at hf
        simp only [Res.err.injEq] at h
        rw [← h.2]
        exact ⟨hf.1, by unfold histRows; rw [hf.2.1]⟩
      · rename_i tid pt tu wr heq
        have hf := resolveTargetFolder_frame env w
        rw [heq] at hf
        simp only [Res.world] at hf
        have hfr : wr.files = w.files ∧ histRows wr = histRows w :=
          ⟨hf.1, by unfold histRows; rw [hf.2.1]⟩
        dsimp only at h
        split at h
        · rename_i e2 w2 heq3
          have hw2 := createFile_err_world env tid _ _ _ wr e2 w2 heq3
          simp only [Res.err.injEq] at h
          rw [← h.2, hw2]
          exact hfr
        · rename_i fid w2 heq3
          split at h
          · rename_i e3 w3 heq4
            obtain ⟨w4, h4⟩ := addRecord_never_throws env _ _ _ _ _ "テキスト" w2
            rw [h4] at heq4
            exact Res.noConfusion heq4
          · exact Res.noConfusion h

/-- The value or thrown message of a computation, with the state forgotten. -/
def Res.ans : Res α → Sum String α
  | .ok a _ => Sum.inr a
  | .err e _ => Sum.inl e

/-- The audio body's outcome (value or thrown message) is unchanged when the
history append is made to fail: logging is a side channel. -/
theorem saveAudioFileBody_appendFail_ans (env : Env) (p b : JSVal) (w : World) :
    (saveAudioFileBody { env with appendRowFail := true } p b w).ans
      = (saveAudioFileBody env p b w).ans := by
  unfold saveAudioFileBody
  rw [show resolveTargetFolder { env with appendRowFail := true } w
        = resolveTargetFolder env w from rfl]
  rw [show createFileInFolder { env with appendRowFail := true }
        = createFileInFolder env from rfl]
  split
  · rfl
  · split
    · rfl
    · split
      · rfl
      · rename_i tid pt tu wr heq
        split
        · rfl
        · rename_i mime b64 heq2
          dsimp only
          split
          · rfl
          · split
            · rfl
            · rename_i fid w2 heq3
              obtain ⟨wA, hA⟩ := addRecord_never_throws { env with appendRowFail := true }
                (if strEndsWith (strToLower b.toStr) ".mp3" = true then b.toStr
                 else b.toStr ++ ".mp3") pt tu (fileUrl fid) "MP3" "音声" w2
              obtain ⟨wB, hB⟩ := addRecord_never_throws env
                (if strEndsWith (strToLower b.toStr) ".mp3" = true then b.toStr
                 else b.toStr ++ ".mp3") pt tu (fileUrl fid) "MP3" "音声" w2
              rw [hA, hB]
              rfl

/-- The audio handler's returned result is unchanged when the history append
is made to fail. -/
theorem saveAudio_result_ignores_appendRowFail (env : Env) (p b : JSVal) (w : World) :
    (saveAudioFile { env with appendRowFail := true } p b w).1
      = (saveAudioFile env p b w).1 := by
  have h := saveAudioFileBody_appendFail_ans env p b w
  unfold saveAudioFile
  rcases hA : saveAudioFileBody { env with appendRowFail := true } p b w with ⟨rA, wA⟩ | ⟨eA, wA⟩ <;>
    rcases hB : saveAudioFileBody env p b w with ⟨rB, wB⟩ | ⟨eB, wB⟩ <;>
    rw [hA, hB] at h <;> simp only [Res.ans] at h <;> simp only [hA, hB]
  all_goals first
    | rfl
    | (simp only [Sum.inr.injEq] at h
       rw [h])
    | cases h

/-- The video body's outcome is unchanged when the history append fails. -/
theorem saveVideoFileBody_appendFail_ans (env : Env) (p b ext mt : JSVal) (w : World) :
    (saveVideoFileBody { env with appendRowFail := true } p b ext mt w).ans
      = (saveVideoFileBody env p b ext mt w).ans := by
  unfold saveVideoFileBody
  rw [show resolveTargetFolder { env with appendRowFail := true } w
        = resolveTargetFolder env w from rfl]
  rw [show createFileInFolder { env with appendRowFail := true }
        = createFileInFolder env from rfl]
  dsimp only
  split
  · rfl
  · split
    · rfl
    · rename_i extV hextV
      split
      · rfl
      · rename_i tid pt tu wr heq
        split
        · rename_i payload hpay
          split
          · rfl
          · rename_i det b64 heq2
            split
            · rfl
            · split
              · rfl
              · rename_i fid w2 heq3
                obtain ⟨wA, hA⟩ := addRecord_never_throws { env with appendRowFail := true }
                  (b.toStr ++ "." ++ strToLower extV) pt tu (fileUrl fid) extV "動画" w2
                obtain ⟨wB, hB⟩ := addRecord_never_throws env
                  (b.toStr ++ "." ++ strToLower extV) pt tu (fileUrl fid) extV "動画" w2
                rw [hA, hB]
                rfl
        · rfl

/-- The video handler's returned result is unchanged when the history append
is made to fail. -/
theorem saveVideo_result_ignores_appendRowFail (env : Env) (p b ext mt : JSVal) (w : World) :
    (saveVideoFile { env with appendRowFail := true } p b ext mt w).1
      = (saveVideoFile env p b ext mt w).1 := by
  have h := saveVideoFileBody_appendFail_ans env p b ext mt w
  unfold saveVideoFile
  rcases hA : saveVideoFileBody { env with appendRowFail := true } p b ext mt w with
    ⟨rA, wA⟩ | ⟨eA, wA⟩ <;>
    rcases hB : saveVideoFileBody env p b ext mt w with ⟨rB, wB⟩ | ⟨eB, wB⟩ <;>
    rw [hA, hB] at h <;> simp only [Res.ans] at h <;> simp only [hA, hB]
  all_goals first
    | rfl
    | (simp only [Sum.inr.injEq] at h
       rw [h])
    | cases h

/-- The photo body's outcome is unchanged when the history append fails. -/
theorem savePhotoFileBody_appendFail_ans (env : Env) (p b ext : JSVal) (w : World) :
    (savePhotoFileBody { env with appendRowFail := true } p b ext w).ans
      = (savePhotoFileBody env p b ext w).ans := by
  unfold savePhotoFileBody
  rw [show resolveTargetFolder { env with appendRowFail := true } w
        = resolveTargetFolder env w from rfl]
  rw [show createFileInFolder { env with appendRowFail := true }
        = createFileInFolder env from rfl]
  dsimp only
  split
  · rfl
  · split
    · rfl
    · rename_i extV hextV
      split
      · rfl
      · rename_i tid pt tu wr heq
        split
        · rename_i payload hpay
          split
          · rfl
          · rename_i det b64 heq2
            split
            · rfl
            · split
              · rfl
              · rename_i fid w2 heq3
                obtain ⟨wA, hA⟩ := addRecord_never_throws { env with appendRowFail := true }
                  (b.toStr ++ "." ++ strToLower extV) pt tu (fileUrl fid)
                  (if strToUpper extV == "JPEG" then "JPG" else strToUpper extV) "写真" w2
                obtain ⟨wB, hB⟩ := addRecord_never_throws env
                  (b.toStr ++ "." ++ strToLower extV) pt tu (fileUrl fid)
                  (if strToUpper extV == "JPEG" then "JPG" else strToUpper extV) "写真" w2
                rw [hA, hB]
                rfl
        · rfl

/-- The photo handler's returned result is unchanged when the history append
is made to fail. -/
theorem savePhoto_result_ignores_appendRowFail (env : Env) (p b ext : JSVal) (w : World) :
    (savePhotoFile { env with appendRowFail := true } p b ext w).1
      = (savePhotoFile env p b ext w).1 := by
  have h := savePhotoFileBody_appendFail_ans env p b ext w
  unfold savePhotoFile
  rcases hA : savePhotoFileBody { env with appendRowFail := true } p b ext w with
    ⟨rA, wA⟩ | ⟨eA, wA⟩ <;>
    rcases hB : savePhotoFileBody env p b ext w with ⟨rB, wB⟩ | ⟨eB, wB⟩ <;>
    rw [hA, hB] at h <;> simp only [Res.ans] at h <;> simp only [hA, hB]
  all_goals first
    | rfl
    | (simp only [Sum.inr.injEq] at h
       rw [h])
    | cases h

/-- The drawing body's outcome is unchanged when the history append fails. -/
theorem saveDrawingFileBody_appendFail_ans (env : Env) (p b : JSVal) (w : World) :
    (saveDrawingFileBody { env with appendRowFail := true } p b w).ans
      = (saveDrawingFileBody env p b w).ans := by
  unfold saveDrawingFileBody
  rw [show resolveTargetFolder { env with appendRowFail := true } w
        = resolveTargetFolder env w from rfl]
  rw [show createFileInFolder { env with appendRowFail := true }
        = createFileInFolder env from rfl]
  split
  · rfl
  · split
    · rfl
    · rename_i tid pt tu wr heq
      split
      · rename_i payload hpay
        split
        · rfl
        · rename_i mime b64 heq2
          dsimp only
          split
          · rfl
          · split
            · rfl
            · rename_i fid w2 heq3
              obtain ⟨wA, hA⟩ := addRecord_never_throws { env with appendRowFail := true }
                (b.toStr ++ ".png") pt tu (fileUrl fid) "PNG" "お絵かき" w2
              obtain ⟨wB, hB⟩ := addRecord_never_throws env
                (b.toStr ++ ".png") pt tu (fileUrl fid) "PNG" "お絵かき" w2
              rw [hA, hB]
              rfl
      · rfl

/-- The drawing handler's returned result is unchanged when the history append
is made to fail. -/
theorem saveDrawing_result_ignores_appendRowFail (env : Env) (p b : JSVal) (w : World) :
    (saveDrawingFile { env with appendRowFail := true } p b w).1
      = (saveDrawingFile env p b w).1 := by
  have h := saveDrawingFileBody_appendFail_ans env p b w
  unfold saveDrawingFile
  rcases hA : saveDrawingFileBody { env with appendRowFail := true } p b w with
    ⟨rA, wA⟩ | ⟨eA, wA⟩ <;>
    rcases hB : saveDrawingFileBody env p b w with ⟨rB, wB⟩ | ⟨eB, wB⟩ <;>
    rw [hA, hB] at h <;> simp only [Res.ans] at h <;> simp only [hA, hB]
  all_goals first
    | rfl
    | (simp only [Sum.inr.injEq] at h
       rw [h])
    | cases h

/-- The text body's outcome is unchanged when the history append fails. -/
theorem saveTextFileBody_appendFail_ans (env : Env) (p b : JSVal) (w : World) :
    (saveTextFileBody { env with appendRowFail := true } p b w).ans
      = (saveTextFileBody env p b w).ans := by
  unfold saveTextFileBody
  rw [show resolveTargetFolder { env with appendRowFail := true } w
        = resolveTargetFolder env w from rfl]
  rw [show createFileInFolder { env with appendRowFail := true }
        = createFileInFolder env from rfl]
  split
  · rfl
  · split
    · rfl
    · split
      · rfl
      · rename_i tid pt tu wr heq
        dsimp only
        split
        · rfl
        · rename_i fid w2 heq3
          obtain ⟨wA, hA⟩ := addRecord_never_throws { env with appendRowFail := true }
            (b.toStr ++ ".txt") pt tu (fileUrl fid) "TXT" "テキスト" w2
          obtain ⟨wB, hB⟩ := addRecord_never_throws env
            (b.toStr ++ ".txt") pt tu (fileUrl fid) "TXT" "テキスト" w2
          rw [hA, hB]
          rfl

/-- The text handler's returned result is unchanged when the history append
is made to fail. -/
theorem saveText_result_ignores_appendRowFail (env : Env) (p b : JSVal) (w : World) :
    (saveTextFile { env with appendRowFail := true } p b w).1
      = (saveTextFile env p b w).1 := by
  have h := saveTextFileBody_appendFail_ans env p b w
  unfold saveTextFile
  rcases hA : saveTextFileBody { env with appendRowFail := true } p b w with
    ⟨rA, wA⟩ | ⟨eA, wA⟩ <;>
    rcases hB : saveTextFileBody env p b w with ⟨rB, wB⟩ | ⟨eB, wB⟩ <;>
    rw [hA, hB] at h <;> simp only [Res.ans] at h <;> simp only [hA, hB]
  all_goals first
    | rfl
    | (simp only [Sum.inr.injEq] at h
       rw [h])
    | cases h

theorem jsStringOf_eq_none (p : JSVal) (hp : p.isString = false) : jsStringOf p = none := by
  cases p
  · exact absurd hp (by simp [JSVal.isString])
  · rfl
  · rfl
  · rfl
  · rfl

/-- The handler outcome claimed for rejected inputs: a failure result, an
unchanged file list, and unchanged history rows. -/
def failsNoFile (out : SaveResult × World) (w : World) : Prop :=
  out.1.success = false ∧ out.2.files = w.files ∧ histRows out.2 = histRows w

theorem saveAudioFile_err_noFile (env : Env) (p b : JSVal) (w : World)
    (h : ∃ e w1, saveAudioFileBody env p b w = .err e w1) :
    failsNoFile (saveAudioFile env p b w) w := by
  obtain ⟨e, w1, h⟩ := h
  unfold saveAudioFile failsNoFile
  simp only [h]
  refine ⟨rfl, (saveAudioFileBody_err_frame env p b w e w1 h).1, (saveAudioFileBody_err_frame env p b w e w1 h).2⟩

theorem saveVideoFile_err_noFile (env : Env) (p b ext mt : JSVal) (w : World)
    (h : ∃ e w1, saveVideoFileBody env p b ext mt w = .err e w1) :
    failsNoFile (saveVideoFile env p b ext mt w) w := by
  obtain ⟨e, w1, h⟩ := h
  unfold saveVideoFile failsNoFile
  simp only [h]
  refine ⟨rfl, (saveVideoFileBody_err_frame env p b ext mt w e w1 h).1, (saveVideoFileBody_err_frame env p b ext mt w e w1 h).2⟩

theorem savePhotoFile_err_noFile (env : Env) (p b ext : JSVal) (w : World)
    (h : ∃ e w1, savePhotoFileBody env p b ext w = .err e w1) :
    failsNoFile (savePhotoFile env p b ext w) w := by
  obtain ⟨e, w1, h⟩ := h
  unfold savePhotoFile failsNoFile
  simp only [h]
  refine ⟨rfl, (savePhotoFileBody_err_frame env p b ext w e w1 h).1, (savePhotoFileBody_err_frame env p b ext w e w1 h).2⟩

theorem saveDrawingFile_err_noFile (env : Env) (p b : JSVal) (w : World)
    (h : ∃ e w1, saveDrawingFileBody env p b w = .err e w1) :
    failsNoFile (saveDrawingFile env p b w) w := by
  obtain ⟨e, w1, h⟩ := h
  unfold saveDrawingFile failsNoFile
  simp only [h]
  refine ⟨rfl, (saveDrawingFileBody_err_frame env p b w e w1 h).1, (saveDrawingFileBody_err_frame env p b w e w1 h).2⟩

theorem saveTextFile_err_noFile (env : Env) (p b : JSVal) (w : World)
    (h : ∃ e w1, saveTextFileBody env p b w = .err e w1) :
    failsNoFile (saveTextFile env p b w) w := by
  obtain ⟨e, w1, h⟩ := h
  unfold saveTextFile failsNoFile
  simp only [h]
  refine ⟨rfl, (saveTextFileBody_err_frame env p b w e w1 h).1, (saveTextFileBody_err_frame env p b w e w1 h).2⟩

/-- Inputs on which the audio body necessarily throws: invalid payload,
invalid base name, or a payload the data-URL regex rejects. -/
theorem saveAudioFileBody_errs (env : Env) (p b : JSVal) (w : World)
    (h : p.truthy = false ∨ p.isString = false ∨ b.truthy = false ∨ b.isString = false
       ∨ strTrim b.toStr = "" ∨ (∀ s, p = .str s → matchDataUrl s = none)) :
    ∃ e w1, saveAudioFileBody env p b w = .err e w1 := by
  unfold saveAudioFileBody
  split
  · exact ⟨_, _, rfl⟩
  · rename_i hc1
    split
    · exact ⟨_, _, rfl⟩
    · rename_i hc2
      split
      · exact ⟨_, _, rfl⟩
      · rename_i tid pt tu wr heq
        split
        · exact ⟨_, _, rfl⟩
        · rename_i mime b64 heq2
          exfalso
          have hpt : p.truthy = true := by
            cases hx : p.truthy
            · rw [hx] at hc1; simp at hc1
            · rfl
          have hps : p.isString = true := by
            cases hx : p.isString
            · rw [hx] at hc1; simp at hc1
            · rfl
          have hbt : b.truthy = true := by
            cases hx : b.truthy
            · rw [hx] at hc2; simp at hc2
            · rfl
          have hbs : b.isString = true := by
            cases hx : b.isString
            · rw [hx] at hc2; simp at hc2
            · rfl
          have hbtr : ¬(strTrim b.toStr = "") := by
            intro hx
            rw [hx] at hc2
            simp at hc2
          rcases h with h | h | h | h | h | h
          · rw [h] at hpt; cases hpt
          · rw [h] at hps; cases hps
          · rw [h] at hbt; cases hbt
          · rw [h] at hbs; cases hbs
          · exact hbtr h
          · cases p with
            | str s =>
              have := h s rfl
              rw [show (JSVal.str s).toStr = s from rfl, this] at heq2
              cases heq2
            | num n => simp [JSVal.isString] at hps
            | boolV x => simp [JSVal.isString] at hps
            | nullV => simp [JSVal.isString] at hps
            | undef => simp [JSVal.isString] at hps

theorem jsStringOf_some (p : JSVal) (payload : String) (h : jsStringOf p = some payload) :
    p = .str payload := by
  cases p
  case str s =>
    simp only [jsStringOf, Option.some.injEq] at h
    rw [h]
  all_goals exact Option.noConfusion h

/-- Inputs on which the video body necessarily throws. -/
theorem saveVideoFileBody_errs (env : Env) (p b ext mt : JSVal) (w : World)
    (h : p.truthy = false ∨ b.truthy = false ∨ p.isString = false
       ∨ (∀ s, p = .str s → matchDataUrl s = none)) :
    ∃ e w1, saveVideoFileBody env p b ext mt w = .err e w1 := by
  unfold saveVideoFileBody
  dsimp only
  split
  · exact ⟨_, _, rfl⟩
  · rename_i hc1
    split
    · exact ⟨_, _, rfl⟩
    · rename_i extV hextV
      split
      · exact ⟨_, _, rfl⟩
      · rename_i tid pt tu wr heq
        split
        · rename_i payload hpay
          split
          · exact ⟨_, _, rfl⟩
          · rename_i det b64 heq2
            exfalso
            have hpt : p.truthy = true := by
              cases hx : p.truthy
              · rw [hx] at hc1; simp at hc1
              · rfl
            have hbt : b.truthy = true := by
              cases hx : b.truthy
              · rw [hx] at hc1; simp at hc1
              · rfl
            have hpstr := jsStringOf_some p payload hpay
            rcases h with h | h | h | h
            · rw [h] at hpt; cases hpt
            · rw [h] at hbt; cases hbt
            · rw [hpstr] at h; simp [JSVal.isString] at h
            · have := h payload hpstr
              rw [this] at heq2
              cases heq2
        · exact ⟨_, _, rfl⟩

/-- Inputs on which the photo body necessarily throws. -/
theorem savePhotoFileBody_errs (env : Env) (p b ext : JSVal) (w : World)
    (h : p.truthy = false ∨ b.truthy = false ∨ p.isString = false
       ∨ (∀ s, p = .str s → matchDataUrl s = none)) :
    ∃ e w1, savePhotoFileBody env p b ext w = .err e w1 := by
  unfold savePhotoFileBody
  dsimp only
  split
  · exact ⟨_, _, rfl⟩
  · rename_i hc1
    split
    · exact ⟨_, _, rfl⟩
    · rename_i extV hextV
      split
      · exact ⟨_, _, rfl⟩
      · rename_i tid pt tu wr heq
        split
        · rename_i payload hpay
          split
          · exact ⟨_, _, rfl⟩
          · rename_i det b64 heq2
            exfalso
            have hpt : p.truthy = true := by
              cases hx : p.truthy
              · rw [hx] at hc1; simp at hc1
              · rfl
            have hbt : b.truthy = true := by
              cases hx : b.truthy
              · rw [hx] at hc1; simp at hc1
              · rfl
            have hpstr := jsStringOf_some p payload hpay
            rcases h with h | h | h | h
            · rw [h] at hpt; cases hpt
            · rw [h] at hbt; cases hbt
            · rw [hpstr] at h; simp [JSVal.isString] at h
            · have := h payload hpstr
              rw [this] at heq2
              cases heq2
        · exact ⟨_, _, rfl⟩

/-- Inputs on which the drawing body necessarily throws. -/
theorem saveDrawingFileBody_errs (env : Env) (p b : JSVal) (w : World)
    (h : p.truthy = false ∨ b.truthy = false ∨ p.isString = false
       ∨ (∀ s, p = .str s → matchDrawingUrl s = none)) :
    ∃ e w1, saveDrawingFileBody env p b w = .err e w1 := by
  unfold saveDrawingFileBody
  split
  · exact ⟨_, _, rfl⟩
  · rename_i hc1
    split
    · exact ⟨_, _, rfl⟩
    · rename_i tid pt tu wr heq
      split
      · rename_i payload hpay
        split
        · exact ⟨_, _, rfl⟩
        · rename_i mime b64 heq2
          exfalso
          have hpt : p.truthy = true := by
            cases hx : p.truthy
            · rw [hx] at hc1; simp at hc1
            · rfl
          have hbt : b.truthy = true := by
            cases hx : b.truthy
            · rw [hx] at hc1; simp at hc1
            · rfl
          have hpstr := jsStringOf_some p payload hpay
          rcases h with h | h | h | h
          · rw [h] at hpt; cases hpt
          · rw [h] at hbt; cases hbt
          · rw [hpstr] at h; simp [JSVal.isString] at h
          · have := h payload hpstr
            rw [this] at heq2
            cases heq2
      · exact ⟨_, _, rfl⟩

/-- Inputs on which the text body necessarily throws. -/
theorem saveTextFileBody_errs (env : Env) (p b : JSVal) (w : World)
    (h : p.truthy = false ∨ p.isString = false ∨ b.truthy = false ∨ b.isString = false
       ∨ strTrim b.toStr = "") :
    ∃ e w1, saveTextFileBody env p b w = .err e w1 := by
  unfold saveTextFileBody
  split
  · exact ⟨_, _, rfl⟩
  · rename_i hc1
    split
    · exact ⟨_, _, rfl⟩
    · rename_i hc2
      exfalso
      have hpt : p.truthy = true := by
        cases hx : p.truthy
        · rw [hx] at hc1; simp at hc1
        · rfl
      have hps : p.isString = true := by
        cases hx : p.isString
        · rw [hx] at hc1; simp at hc1
        · rfl
      have hbt : b.truthy = true := by
        cases hx : b.truthy
        · rw [hx] at hc2; simp at hc2
        · rfl
      have hbs : b.isString = true := by
        cases hx : b.isString
        · rw [hx] at hc2; simp at hc2
        · rfl
      have hbtr : ¬(strTrim b.toStr = "") := by
        intro hx
        rw [hx] at hc2
        simp at hc2
      rcases h with h | h | h | h | h
      · rw [h] at hpt; cases hpt
      · rw [h] at hps; cases hps
      · rw [h] at hbt; cases hbt
      · rw [h] at hbs; cases hbs
      · exact hbtr h

theorem createFile_ok_spec (env : Env) (fid : Nat) (n m c : String) (w : World)
    (fid2 : Nat) (w2 : World) (h : createFileInFolder env fid n m c w = .ok fid2 w2) :
    fid2 = w.nextId ∧ w2.files = w.files ++ [⟨w.nextId, n, m, c, fid⟩] := by
  unfold createFileInFolder at h
  split at h
  · exact Res.noConfusion h
  · simp only [Res.ok.injEq] at h
    exact ⟨h.1.symm, by rw [← h.2]⟩

/-- A successful audio save appends exactly one file, named by the `.mp3`
forcing rule and carrying the declared mime type. -/
theorem saveAudioFileBody_ok_file (env : Env) (p b : JSVal) (w : World)
    (r : SaveResult) (w1 : World) (h : saveAudioFileBody env p b w = .ok r w1) :
    ∃ mime b64 f, matchDataUrl p.toStr = some (mime, b64) ∧
      w1.files = w.files ++ [f] ∧
      f.name = (if strEndsWith (strToLower b.toStr) ".mp3" = true then b.toStr
                else b.toStr ++ ".mp3") ∧
      f.mime = mime ∧ r.fileName = some f.name := by
  unfold saveAudioFileBody at h
  split at h
  · exact Res.noConfusion h
  · split at h
    · exact Res.noConfusion h
    · split at h
      · exact Res.noConfusion h
      · rename_i tid pt tu wr heq
        split at h
        · exact Res.noConfusion h
        · rename_i mime b64 heq2
          dsimp only at h
          split at h
          · exact Res.noConfusion h
          · split at h
            · exact Res.noConfusion h
            · rename_i fid w2 heq3
              split at h
              · rename_i e3 w3 heq4
                obtain ⟨w4, h4⟩ := addRecord_never_throws env _ pt tu (fileUrl fid) "MP3" "音声" w2
                rw [h4] at heq4
                exact Res.noConfusion heq4
              · rename_i u w3 heq4
                simp only [Res.ok.injEq] at h
                obtain ⟨hr, hw⟩ := h
                have hrf := resolveTargetFolder_frame env w
                rw [heq] at hrf
                simp only [Res.world] at hrf
                have hcf := createFile_ok_spec env tid _ mime b64 wr fid w2 heq3
                have haf := addRecord_frame env
                  (if strEndsWith (strToLower b.toStr) ".mp3" = true then b.toStr
                   else b.toStr ++ ".mp3") pt tu (fileUrl fid) "MP3" "音声" w2
                rw [heq4] at haf
                simp only [Res.world] at haf
                refine ⟨mime, b64,
                  ⟨wr.nextId,
                   (if strEndsWith (strToLower b.toStr) ".mp3" = true then b.toStr
                    else b.toStr ++ ".mp3"), mime, b64, tid⟩, heq2, ?_, rfl, rfl, ?_⟩
                · rw [← hw, haf.1, hcf.2, hrf.1]
                · rw [← hr]

/-- A successful video save appends exactly one file: named with the validated
extension, and the blob mime prefers the `mimeType` parameter when truthy. -/
theorem saveVideoFileBody_ok_file (env : Env) (p b ext mt : JSVal) (w : World)
    (r : SaveResult) (w1 : World) (h : saveVideoFileBody env p b ext mt w = .ok r w1) :
    ∃ payload extV det b64 f,
      jsStringOf p = some payload ∧
      validateExt ["mp4", "webm"] "webm" (if ext == JSVal.undef then JSVal.str "webm" else ext)
        = some extV ∧
      matchDataUrl payload = some (det, b64) ∧
      w1.files = w.files ++ [f] ∧
      f.name = b.toStr ++ "." ++ strToLower extV ∧
      f.mime = (if (if mt == JSVal.undef then JSVal.str "video/webm" else mt).truthy = true
                then (if mt == JSVal.undef then JSVal.str "video/webm" else mt).toStr
                else det) := by
  unfold saveVideoFileBody at h
  dsimp only at h
  split at h
  · exact Res.noConfusion h
  · split at h
    · exact Res.noConfusion h
    · rename_i extV hextV
      split at h
      · exact Res.noConfusion h
      · rename_i tid pt tu wr heq
        split at h
        · rename_i payload hpay
          split at h
          · exact Res.noConfusion h
          · rename_i det b64 heq2
            split at h
            · exact Res.noConfusion h
            · split at h
              · exact Res.noConfusion h
              · rename_i fid w2 heq3
                split at h
                · rename_i e3 w3 heq4
                  obtain ⟨w4, h4⟩ := addRecord_never_throws env
                    (b.toStr ++ "." ++ strToLower extV) pt tu (fileUrl fid) extV "動画" w2
                  rw [h4] at heq4
                  exact Res.noConfusion heq4
                · rename_i u w3 heq4
                  simp only [Res.ok.injEq] at h
                  obtain ⟨hr, hw⟩ := h
                  have hrf := resolveTargetFolder_frame env w
                  rw [heq] at hrf
                  simp only [Res.world] at hrf
                  have hcf := createFile_ok_spec env tid (b.toStr ++ "." ++ strToLower extV)
                    (if (if mt == JSVal.undef then JSVal.str "video/webm" else mt).truthy = true
                     then (if mt == JSVal.undef then JSVal.str "video/webm" else mt).toStr
                     else det) b64 wr fid w2 heq3
                  have haf := addRecord_frame env (b.toStr ++ "." ++ strToLower extV) pt tu
                    (fileUrl fid) extV "動画" w2
                  rw [heq4] at haf
                  simp only [Res.world] at haf
                  refine ⟨payload, extV, det, b64,
                    ⟨wr.nextId, b.toStr ++ "." ++ strToLower extV,
                     (if (if mt == JSVal.undef then JSVal.str "video/webm" else mt).truthy = true
                      then (if mt == JSVal.undef then JSVal.str "video/webm" else mt).toStr
                      else det), b64, tid⟩,
                    hpay, hextV, heq2, ?_, rfl, rfl⟩
                  rw [← hw, haf.1, hcf.2, hrf.1]
        · exact Res.noConfusion h

/-- A successful photo save appends exactly one file, named with the validated
extension and carrying the declared mime type. -/
theorem savePhotoFileBody_ok_file (env : Env) (p b ext : JSVal) (w : World)
    (r : SaveResult) (w1 : World) (h : savePhotoFileBody env p b ext w = .ok r w1) :
    ∃ payload extV det b64 f,
      jsStringOf p = some payload ∧
      validateExt ["jpg", "jpeg", "png"] "jpg" (if ext == JSVal.undef then JSVal.str "jpg" else ext)
        = some extV ∧
      matchDataUrl payload = some (det, b64) ∧
      w1.files = w.files ++ [f] ∧
      f.name = b.toStr ++ "." ++ strToLower extV ∧
      f.mime = det := by
  unfold savePhotoFileBody at h
  dsimp only at h
  split at h
  · exact Res.noConfusion h
  · split at h
    · exact Res.noConfusion h
    · rename_i extV hextV
      split at h
      · exact Res.noConfusion h
      · rename_i tid pt tu wr heq
        split at h
        · rename_i payload hpay
          split at h
          · exact Res.noConfusion h
          · rename_i det b64 heq2
            split at h
            · exact Res.noConfusion h
            · split at h
              · exact Res.noConfusion h
              · rename_i fid w2 heq3
                split at h
                · rename_i e3 w3 heq4
                  obtain ⟨w4, h4⟩ := addRecord_never_throws env
                    (b.toStr ++ "." ++ strToLower extV) pt tu (fileUrl fid)
                    (if strToUpper extV == "JPEG" then "JPG" else strToUpper extV) "写真" w2
                  rw [h4] at heq4
                  exact Res.noConfusion heq4
                · rename_i u w3 heq4
                  simp only [Res.ok.injEq] at h
                  obtain ⟨hr, hw⟩ := h
                  have hrf := resolveTargetFolder_frame env w
                  rw [heq] at hrf
                  simp only [Res.world] at hrf
                  have hcf := createFile_ok_spec env tid (b.toStr ++ "." ++ strToLower extV)
                    det b64 wr fid w2 heq3
                  have haf := addRecord_frame env (b.toStr ++ "." ++ strToLower extV) pt tu
                    (fileUrl fid)
                    (if strToUpper extV == "JPEG" then "JPG" else strToUpper extV) "写真" w2
                  rw [heq4] at haf
                  simp only [Res.world] at haf
                  refine ⟨payload, extV, det, b64,
                    ⟨wr.nextId, b.toStr ++ "." ++ strToLower extV, det, b64, tid⟩,
                    hpay, hextV, heq2, ?_, rfl, rfl⟩
                  rw [← hw, haf.1, hcf.2, hrf.1]
        · exact Res.noConfusion h

/-- A successful drawing save appends exactly one `.png` file whose payload
matched the strict `image/png` pattern. -/
theorem saveDrawingFileBody_ok_file (env : Env) (p b : JSVal) (w : World)
    (r : SaveResult) (w1 : World) (h : saveDrawingFileBody env p b w = .ok r w1) :
    ∃ payload m b64 f,
      jsStringOf p = some payload ∧
      matchDrawingUrl payload = some (m, b64) ∧
      w1.files = w.files ++ [f] ∧
      f.name = b.toStr ++ ".png" ∧
      f.mime = m := by
  unfold saveDrawingFileBody at h
  split at h
  · exact Res.noConfusion h
  · split at h
    · exact Res.noConfusion h
    · rename_i tid pt tu wr heq
      split at h
      · rename_i payload hpay
        split at h
        · exact Res.noConfusion h
        · rename_i m b64 heq2
          dsimp only at h
          split at h
          · exact Res.noConfusion h
          · split at h
            · exact Res.noConfusion h
            · rename_i fid w2 heq3
              split at h
              · rename_i e3 w3 heq4
                obtain ⟨w4, h4⟩ := addRecord_never_throws env
                  (b.toStr ++ ".png") pt tu (fileUrl fid) "PNG" "お絵かき" w2
                rw [h4] at heq4
                exact Res.noConfusion heq4
              · rename_i u w3 heq4
                simp only [Res.ok.injEq] at h
                obtain ⟨hr, hw⟩ := h
                have hrf := resolveTargetFolder_frame env w
                rw [heq] at hrf
                simp only [Res.world] at hrf
                have hcf := createFile_ok_spec env tid (b.toStr ++ ".png") m b64 wr fid w2 heq3
                have haf := addRecord_frame env (b.toStr ++ ".png") pt tu (fileUrl fid)
                  "PNG" "お絵かき" w2
                rw [heq4] at haf
                simp only [Res.world] at haf
                refine ⟨payload, m, b64,
                  ⟨wr.nextId, b.toStr ++ ".png", m, b64, tid⟩,
                  hpay, heq2, ?_, rfl, rfl⟩
                rw [← hw, haf.1, hcf.2, hrf.1]
      · exact Res.noConfusion h

/-- A successful text save appends exactly one `.txt` plain-text file. -/
theorem saveTextFileBody_ok_file (env : Env) (p b : JSVal) (w : World)
    (r : SaveResult) (w1 : World) (h : saveTextFileBody env p b w = .ok r w1) :
    ∃ f, w1.files = w.files ++ [f] ∧
      f.name = b.toStr ++ ".txt" ∧
      f.mime = "text/plain" ∧ f.content = p.toStr := by
  unfold saveTextFileBody at h
  split at h
  · exact Res.noConfusion h
  · split at h
    · exact Res.noConfusion h
    · split at h
      · exact Res.noConfusion h
      · rename_i tid pt tu wr heq
        dsimp only at h
        split at h
        · exact Res.noConfusion h
        · rename_i fid w2 heq3
          split at h
          · rename_i e3 w3 heq4
            obtain ⟨w4, h4⟩ := addRecord_never_throws env
              (b.toStr ++ ".txt") pt tu (fileUrl fid) "TXT" "テキスト" w2
            rw [h4] at heq4
            exact Res.noConfusion heq4
          · rename_i u w3 heq4
            simp only [Res.ok.injEq] at h
            obtain ⟨hr, hw⟩ := h
            have hrf := resolveTargetFolder_frame env w
            rw [heq] at hrf
            simp only [Res.world] at hrf
            have hcf := createFile_ok_spec env tid (b.toStr ++ ".txt") "text/plain"
              p.toStr wr fid w2 heq3
            have haf := addRecord_frame env (b.toStr ++ ".txt") pt tu (fileUrl fid)
              "TXT" "テキスト" w2
            rw [heq4] at haf
            simp only [Res.world] at haf
            refine ⟨⟨wr.nextId, b.toStr ++ ".txt", "text/plain", p.toStr, tid⟩,
              ?_, rfl, rfl, rfl⟩
            rw [← hw, haf.1, hcf.2, hrf.1]

theorem toList_append (s t : String) : (s ++ t).toList = s.toList ++ t.toList := by
  cases s
  cases t
  rfl

theorem strToLower_append (s t : String) :
    strToLower (s ++ t) = strToLower s ++ strToLower t := by
  unfold strToLower
  rw [toList_append, List.map_append]
  rfl

theorem strEndsWith_append (s t : String) : strEndsWith (s ++ t) t = true := by
  unfold strEndsWith
  rw [toList_append]
  simp [List.isSuffixOf_iff_suffix]

/-- The file name the audio handler builds always ends in `.mp3`,
case-insensitively. -/
theorem audio_final_name_mp3 (base : String) :
    strEndsWith
      (strToLower (if strEndsWith (strToLower base) ".mp3" = true then base
                   else base ++ ".mp3")) ".mp3" = true := by
  split
  · rename_i hx
    exact hx
  · rw [strToLower_append]
    rw [show strToLower ".mp3" = ".mp3" from rfl]
    exact strEndsWith_append _ _

/-- A successful catch-level outcome comes from a successful body run ending
in the same world. -/
theorem saveAudioFile_success_body (env : Env) (p b : JSVal) (w : World)
    (h : (saveAudioFile env p b w).1.success = true) :
    ∃ r w1, saveAudioFileBody env p b w = .ok r w1 ∧
      (saveAudioFile env p b w).1 = r ∧ (saveAudioFile env p b w).2 = w1 := by
  rcases hb : saveAudioFileBody env p b w with ⟨r, w1⟩ | ⟨e, w1⟩
  · exact ⟨r, w1, rfl, by unfold saveAudioFile; rw [hb], by unfold saveAudioFile; rw [hb]⟩
  · unfold saveAudioFile at h
    rw [hb] at h
    cases h

theorem saveVideoFile_success_body (env : Env) (p b ext mt : JSVal) (w : World)
    (h : (saveVideoFile env p b ext mt w).1.success = true) :
    ∃ r w1, saveVideoFileBody env p b ext mt w = .ok r w1 ∧
      (saveVideoFile env p b ext mt w).1 = r ∧ (saveVideoFile env p b ext mt w).2 = w1 := by
  rcases hb : saveVideoFileBody env p b ext mt w with ⟨r, w1⟩ | ⟨e, w1⟩
  · exact ⟨r, w1, rfl, by unfold saveVideoFile; rw [hb], by unfold saveVideoFile; rw [hb]⟩
  · unfold saveVideoFile at h
    rw [hb] at h
    cases h

theorem savePhotoFile_success_body (env : Env) (p b ext : JSVal) (w : World)
    (h : (savePhotoFile env p b ext w).1.success = true) :
    ∃ r w1, savePhotoFileBody env p b ext w = .ok r w1 ∧
      (savePhotoFile env p b ext w).1 = r ∧ (savePhotoFile env p b ext w).2 = w1 := by
  rcases hb : savePhotoFileBody env p b ext w with ⟨r, w1⟩ | ⟨e, w1⟩
  · exact ⟨r, w1, rfl, by unfold savePhotoFile; rw [hb], by unfold savePhotoFile; rw [hb]⟩
  · unfold savePhotoFile at h
    rw [hb] at h
    cases h

theorem saveDrawingFile_success_body (env : Env) (p b : JSVal) (w : World)
    (h : (saveDrawingFile env p b w).1.success = true) :
    ∃ r w1, saveDrawingFileBody env p b w = .ok r w1 ∧
      (saveDrawingFile env p b w).1 = r ∧ (saveDrawingFile env p b w).2 = w1 := by
  rcases hb : saveDrawingFileBody env p b w with ⟨r, w1⟩ | ⟨e, w1⟩
  · exact ⟨r, w1, rfl, by unfold saveDrawingFile; rw [hb], by unfold saveDrawingFile; rw [hb]⟩
  · unfold saveDrawingFile at h
    rw [hb] at h
    cases h

theorem saveTextFile_success_body (env : Env) (p b : JSVal) (w : World)
    (h : (saveTextFile env p b w).1.success = true) :
    ∃ r w1, saveTextFileBody env p b w = .ok r w1 ∧
      (saveTextFile env p b w).1 = r ∧ (saveTextFile env p b w).2 = w1 := by
  rcases hb : saveTextFileBody env p b w with ⟨r, w1⟩ | ⟨e, w1⟩
  · exact ⟨r, w1, rfl, by unfold saveTextFile; rw [hb], by unfold saveTextFile; rw [hb]⟩
  · unfold saveTextFile at h
    rw [hb] at h
    cases h

/-- C1 (code bug): the header migration of `createHistorySheetIfNotExists`
does not purely append.  On a header missing only the "ファイル形式" column it
writes "ファイル形式" into the last existing column, overwriting the existing
"メディアタイプ" header cell; on a header missing both optional columns the two
writes land on the same new column, so the just-written "メディアタイプ" is
overwritten.  A second call is only a no-op when the schema is already
current (last conjunct). -/
theorem C1_migration_overwrites_header :
    (migrateHeaders ["ファイル名", "保存日時", "フォルダパス", "ファイルリンク", "メディアタイプ"]
       = ["ファイル名", "保存日時", "フォルダパス", "ファイルリンク", "ファイル形式"]) ∧
    (migrateHeaders ["ファイル名", "保存日時", "フォルダパス", "ファイルリンク"]
       = ["ファイル名", "保存日時", "フォルダパス", "ファイルリンク", "ファイル形式"]) ∧
    (createHistorySheetIfNotExists goodEnv
       { w0 with histSheet := some ⟨["ファイル名", "保存日時", "フォルダパス", "ファイルリンク",
                                     "メディアタイプ"], []⟩ }
       = .ok () { w0 with histSheet := some ⟨["ファイル名", "保存日時", "フォルダパス",
                                              "ファイルリンク", "ファイル形式"], []⟩ }) ∧
    (migrateHeaders HISTORY_HEADERS = HISTORY_HEADERS) := by
  exact ⟨by decide, by decide, by decide, by decide⟩

/-- C2 (counterexample): `saveVideoFile` accepts a whitespace-only base file
name: the save succeeds and the file " .webm" is created, where the claim
demands a failure result and no file. -/
theorem C2_counterexample_whitespace_name :
    (saveVideoFile goodEnv (.str "data:video/webm;base64,AAAA") (.str " ")
       .undef .undef w0).1.success = true ∧
    ((saveVideoFile goodEnv (.str "data:video/webm;base64,AAAA") (.str " ")
       .undef .undef w0).2.files.map (fun f => f.name)) = [" .webm"] := by
  exact ⟨by decide, by decide⟩

/-- C2 (amended): a falsy payload or base name is rejected by all five
handlers with no file created and no history row; a truthy non-string payload
is likewise rejected by all five; but the full "non-empty string" validation
of baseFileName (string type and non-whitespace) is enforced only by
`saveAudioFile` and `saveTextFile`. -/
theorem C2_amended_validation (env : Env) (w : World) (p b ext mt : JSVal) :
    ((p.truthy = false ∨ b.truthy = false) →
       failsNoFile (saveAudioFile env p b w) w ∧
       failsNoFile (saveVideoFile env p b ext mt w) w ∧
       failsNoFile (savePhotoFile env p b ext w) w ∧
       failsNoFile (saveDrawingFile env p b w) w ∧
       failsNoFile (saveTextFile env p b w) w) ∧
    (p.isString = false →
       failsNoFile (saveAudioFile env p b w) w ∧
       failsNoFile (saveVideoFile env p b ext mt w) w ∧
       failsNoFile (savePhotoFile env p b ext w) w ∧
       failsNoFile (saveDrawingFile env p b w) w ∧
       failsNoFile (saveTextFile env p b w) w) ∧
    ((b.isString = false ∨ strTrim b.toStr = "") →
       failsNoFile (saveAudioFile env p b w) w ∧
       failsNoFile (saveTextFile env p b w) w) := by
  refine ⟨?_, ?_, ?_⟩
  · intro h
    have h5 : p.truthy = false ∨ b.truthy = false := h
    refine ⟨saveAudioFile_err_noFile env p b w ?_,
            saveVideoFile_err_noFile env p b ext mt w ?_,
            savePhotoFile_err_noFile env p b ext w ?_,
            saveDrawingFile_err_noFile env p b w ?_,
            saveTextFile_err_noFile env p b w ?_⟩
    · exact saveAudioFileBody_errs env p b w
        (h5.elim (fun hx => Or.inl hx) (fun hx => Or.inr (Or.inr (Or.inl hx))))
    · exact saveVideoFileBody_errs env p b ext mt w
        (h5.elim (fun hx => Or.inl hx) (fun hx => Or.inr (Or.inl hx)))
    · exact savePhotoFileBody_errs env p b ext w
        (h5.elim (fun hx => Or.inl hx) (fun hx => Or.inr (Or.inl hx)))
    · exact saveDrawingFileBody_errs env p b w
        (h5.elim (fun hx => Or.inl hx) (fun hx => Or.inr (Or.inl hx)))
    · exact saveTextFileBody_errs env p b w
        (h5.elim (fun hx => Or.inl hx) (fun hx => Or.inr (Or.inr (Or.inl hx))))
  · intro h
    refine ⟨saveAudioFile_err_noFile env p b w
              (saveAudioFileBody_errs env p b w (Or.inr (Or.inl h))),
            saveVideoFile_err_noFile env p b ext mt w
              (saveVideoFileBody_errs env p b ext mt w (Or.inr (Or.inr (Or.inl h)))),
            savePhotoFile_err_noFile env p b ext w
              (savePhotoFileBody_errs env p b ext w (Or.inr (Or.inr (Or.inl h)))),
            saveDrawingFile_err_noFile env p b w
              (saveDrawingFileBody_errs env p b w (Or.inr (Or.inr (Or.inl h)))),
            saveTextFile_err_noFile env p b w
              (saveTextFileBody_errs env p b w (Or.inr (Or.inl h)))⟩
  · intro h
    refine ⟨saveAudioFile_err_noFile env p b w ?_, saveTextFile_err_noFile env p b w ?_⟩
    · exact saveAudioFileBody_errs env p b w
        (h.elim (fun hx => Or.inr (Or.inr (Or.inr (Or.inl hx))))
                (fun hx => Or.inr (Or.inr (Or.inr (Or.inr (Or.inl hx))))))
    · exact saveTextFileBody_errs env p b w
        (h.elim (fun hx => Or.inr (Or.inr (Or.inr (Or.inl hx))))
                (fun hx => Or.inr (Or.inr (Or.inr (Or.inr hx)))))

/-- C2 (amended, witness): a null payload is rejected by saveAudioFile; a
whitespace-only base name is rejected by saveTextFile. -/
theorem C2_amended_validation_witness :
    failsNoFile (saveAudioFile goodEnv JSVal.nullV (JSVal.str "x") w0) w0 ∧
    failsNoFile (saveTextFile goodEnv (JSVal.str "hello") (JSVal.str " ") w0) w0 :=
  ⟨((C2_amended_validation goodEnv w0 JSVal.nullV (JSVal.str "x")
      JSVal.undef JSVal.undef).1 (Or.inl rfl)).1,
   ((C2_amended_validation goodEnv w0 (JSVal.str "hello") (JSVal.str " ")
      JSVal.undef JSVal.undef).2.2 (Or.inr (by decide))).2⟩

/-- C3: every save handler is a failure boundary: for every input (of any
type) and every backend behaviour, the returned value is a structured result
that is either a success or the handler's localized generic failure message;
no exception crosses the handler (formally, the catch-wrapped handlers are
total functions into `SaveResult × World`). -/
theorem C3_failure_boundary :
    (∀ (env : Env) (p b : JSVal) (w : World),
       (saveAudioFile env p b w).1.success = true ∨
       (saveAudioFile env p b w).1 = failResult "音声ファイルの保存中にエラーが発生しました。") ∧
    (∀ (env : Env) (p b ext mt : JSVal) (w : World),
       (saveVideoFile env p b ext mt w).1.success = true ∨
       (saveVideoFile env p b ext mt w).1 = failResult "動画ファイルの保存中にエラーが発生しました。") ∧
    (∀ (env : Env) (p b ext : JSVal) (w : World),
       (savePhotoFile env p b ext w).1.success = true ∨
       (savePhotoFile env p b ext w).1 = failResult "写真ファイルの保存中にエラーが発生しました。") ∧
    (∀ (env : Env) (p b : JSVal) (w : World),
       (saveDrawingFile env p b w).1.success = true ∨
       (saveDrawingFile env p b w).1 = failResult "お絵かきファイルの保存中にエラーが発生しました。") ∧
    (∀ (env : Env) (p b : JSVal) (w : World),
       (saveTextFile env p b w).1.success = true ∨
       (saveTextFile env p b w).1 = failResult "テキストファイルの保存中にエラーが発生しました。") := by
  refine ⟨?_, ?_, ?_, ?_, ?_⟩
  · intro env p b w
    rcases hb : saveAudioFileBody env p b w with ⟨r, w1⟩ | ⟨e, w1⟩
    · left
      unfold saveAudioFile
      rw [hb]
      exact saveAudioFileBody_ok_success env p b w r w1 hb
    · right
      unfold saveAudioFile
      rw [hb]
  · intro env p b ext mt w
    rcases hb : saveVideoFileBody env p b ext mt w with ⟨r, w1⟩ | ⟨e, w1⟩
    · left
      unfold saveVideoFile
      rw [hb]
      exact saveVideoFileBody_ok_success env p b ext mt w r w1 hb
    · right
      unfold saveVideoFile
      rw [hb]
  · intro env p b ext w
    rcases hb : savePhotoFileBody env p b ext w with ⟨r, w1⟩ | ⟨e, w1⟩
    · left
      unfold savePhotoFile
      rw [hb]
      exact savePhotoFileBody_ok_success env p b ext w r w1 hb
    · right
      unfold savePhotoFile
      rw [hb]
  · intro env p b w
    rcases hb : saveDrawingFileBody env p b w with ⟨r, w1⟩ | ⟨e, w1⟩
    · left
      unfold saveDrawingFile
      rw [hb]
      exact saveDrawingFileBody_ok_success env p b w r w1 hb
    · right
      unfold saveDrawingFile
      rw [hb]
  · intro env p b w
    rcases hb : saveTextFileBody env p b w with ⟨r, w1⟩ | ⟨e, w1⟩
    · left
      unfold saveTextFile
      rw [hb]
      exact saveTextFileBody_ok_success env p b w r w1 hb
    · right
      unfold saveTextFile
      rw [hb]

/-- C4: `addRecordToHistorySheet` catches every internal failure (it never
throws); making the history append fail changes no handler's returned result;
and concretely, with a failing append the audio save still succeeds while no
history row is written. -/
theorem C4_history_log_isolated :
    (∀ (env : Env) (a b c d e f : String) (w : World),
       ∃ w1, addRecordToHistorySheet env a b c d e f w = .ok () w1) ∧
    (∀ (env : Env) (p b : JSVal) (w : World),
       (saveAudioFile { env with appendRowFail := true } p b w).1
         = (saveAudioFile env p b w).1) ∧
    (∀ (env : Env) (p b ext mt : JSVal) (w : World),
       (saveVideoFile { env with appendRowFail := true } p b ext mt w).1
         = (saveVideoFile env p b ext mt w).1) ∧
    (∀ (env : Env) (p b ext : JSVal) (w : World),
       (savePhotoFile { env with appendRowFail := true } p b ext w).1
         = (savePhotoFile env p b ext w).1) ∧
    (∀ (env : Env) (p b : JSVal) (w : World),
       (saveDrawingFile { env with appendRowFail := true } p b w).1
         = (saveDrawingFile env p b w).1) ∧
    (∀ (env : Env) (p b : JSVal) (w : World),
       (saveTextFile { env with appendRowFail := true } p b w).1
         = (saveTextFile env p b w).1) ∧
    ((saveAudioFile appendFailEnv (.str "data:audio/mp3;base64,AAAA") (.str "note")
        w0).1.success = true ∧
     histRows (saveAudioFile appendFailEnv (.str "data:audio/mp3;base64,AAAA") (.str "note")
        w0).2 = histRows w0) := by
  exact ⟨addRecord_never_throws,
         saveAudio_result_ignores_appendRowFail,
         saveVideo_result_ignores_appendRowFail,
         savePhoto_result_ignores_appendRowFail,
         saveDrawing_result_ignores_appendRowFail,
         saveText_result_ignores_appendRowFail,
         by decide, by decide⟩

/-- C5: a payload string rejected by the data-URL pattern
`data:<mime>;base64,<data>` makes each of the four data-URL handlers return a
failure, create no file, and append no history row. -/
theorem C5_malformed_payload_rejected (env : Env) (w : World) (b ext mt : JSVal)
    (p : String) (hnm : matchDataUrl p = none) :
    failsNoFile (saveAudioFile env (.str p) b w) w ∧
    failsNoFile (saveVideoFile env (.str p) b ext mt w) w ∧
    failsNoFile (savePhotoFile env (.str p) b ext w) w ∧
    failsNoFile (saveDrawingFile env (.str p) b w) w := by
  have hstr : ∀ s, JSVal.str p = JSVal.str s → matchDataUrl s = none := by
    intro s hs
    rw [← (JSVal.str.injEq p s).mp hs]
    exact hnm
  have hdraw : ∀ s, JSVal.str p = JSVal.str s → matchDrawingUrl s = none := by
    intro s hs
    rw [← (JSVal.str.injEq p s).mp hs]
    exact matchDrawingUrl_none_of_dataUrl_none p hnm
  exact ⟨saveAudioFile_err_noFile env (.str p) b w
           (saveAudioFileBody_errs env (.str p) b w
             (Or.inr (Or.inr (Or.inr (Or.inr (Or.inr hstr)))))),
         saveVideoFile_err_noFile env (.str p) b ext mt w
           (saveVideoFileBody_errs env (.str p) b ext mt w (Or.inr (Or.inr (Or.inr hstr)))),
         savePhotoFile_err_noFile env (.str p) b ext w
           (savePhotoFileBody_errs env (.str p) b ext w (Or.inr (Or.inr (Or.inr hstr)))),
         saveDrawingFile_err_noFile env (.str p) b w
           (saveDrawingFileBody_errs env (.str p) b w (Or.inr (Or.inr (Or.inr hdraw))))⟩

/-- C5 (witness): the payload "AAAA" (no `data:` prefix) is rejected by all
four data-URL handlers on a fresh deployment with no file and no row. -/
theorem C5_malformed_payload_rejected_witness :
    failsNoFile (saveAudioFile goodEnv (.str "AAAA") (.str "note") w0) w0 ∧
    failsNoFile (saveVideoFile goodEnv (.str "AAAA") (.str "note") .undef .undef w0) w0 ∧
    failsNoFile (savePhotoFile goodEnv (.str "AAAA") (.str "note") .undef w0) w0 ∧
    failsNoFile (saveDrawingFile goodEnv (.str "AAAA") (.str "note") w0) w0 :=
  C5_malformed_payload_rejected goodEnv w0 (.str "note") JSVal.undef JSVal.undef
    "AAAA" (by decide)

/-- C6: every successful save creates its file with the forced/validated
extension: audio `.mp3` (case-insensitively, without double-appending); video
the lowercased supplied extension when in {mp4, webm}, else `webm`; photo the
lowercased supplied extension when in {jpg, jpeg, png}, else `jpg`; drawing
`.png`; text `.txt`. -/
theorem C6_final_name_extensions :
    (∀ (env : Env) (p b : JSVal) (w : World),
       (saveAudioFile env p b w).1.success = true →
       ∃ f, (saveAudioFile env p b w).2.files = w.files ++ [f] ∧
         strEndsWith (strToLower f.name) ".mp3" = true) ∧
    (∀ (env : Env) (p b mt : JSVal) (w : World) (s : String),
       (saveVideoFile env p b (.str s) mt w).1.success = true →
       ∃ f, (saveVideoFile env p b (.str s) mt w).2.files = w.files ++ [f] ∧
         f.name = b.toStr ++ "." ++
           (if ["mp4", "webm"].contains (strToLower s) then strToLower s else "webm")) ∧
    (∀ (env : Env) (p b : JSVal) (w : World) (s : String),
       (savePhotoFile env p b (.str s) w).1.success = true →
       ∃ f, (savePhotoFile env p b (.str s) w).2.files = w.files ++ [f] ∧
         f.name = b.toStr ++ "." ++
           (if ["jpg", "jpeg", "png"].contains (strToLower s) then strToLower s else "jpg")) ∧
    (∀ (env : Env) (p b : JSVal) (w : World),
       (saveDrawingFile env p b w).1.success = true →
       ∃ f, (saveDrawingFile env p b w).2.files = w.files ++ [f] ∧
         f.name = b.toStr ++ ".png") ∧
    (∀ (env : Env) (p b : JSVal) (w : World),
       (saveTextFile env p b w).1.success = true →
       ∃ f, (saveTextFile env p b w).2.files = w.files ++ [f] ∧
         f.name = b.toStr ++ ".txt") := by
  refine ⟨?_, ?_, ?_, ?_, ?_⟩
  · intro env p b w h
    obtain ⟨r, w1, hb, hr1, hw1⟩ := saveAudioFile_success_body env p b w h
    obtain ⟨mime, b64, f, hmat, hfiles, hname, hmime, hfn⟩ :=
      saveAudioFileBody_ok_file env p b w r w1 hb
    refine ⟨f, by rw [hw1]; exact hfiles, ?_⟩
    rw [hname]
    exact audio_final_name_mp3 b.toStr
  · intro env p b mt w s h
    obtain ⟨r, w1, hb, hr1, hw1⟩ := saveVideoFile_success_body env p b (.str s) mt w h
    obtain ⟨payload, extV, det, b64, f, hpay, hext, hmat, hfiles, hname, hmime⟩ :=
      saveVideoFileBody_ok_file env p b (.str s) mt w r w1 hb
    have hne : (JSVal.str s == JSVal.undef) = false := by rfl
    rw [hne] at hext
    simp only [Bool.false_eq_true, if_false, validateExt, Option.some.injEq] at hext
    refine ⟨f, by rw [hw1]; exact hfiles, ?_⟩
    rw [hname, ← hext]
    by_cases hc : ["mp4", "webm"].contains (strToLower s) = true
    · rw [if_pos hc, if_pos hc]
    · rw [if_neg (by simpa using hc), if_neg (by simpa using hc)]
      rfl
  · intro env p b w s h
    obtain ⟨r, w1, hb, hr1, hw1⟩ := savePhotoFile_success_body env p b (.str s) w h
    obtain ⟨payload, extV, det, b64, f, hpay, hext, hmat, hfiles, hname, hmime⟩ :=
      savePhotoFileBody_ok_file env p b (.str s) w r w1 hb
    have hne : (JSVal.str s == JSVal.undef) = false := by rfl
    rw [hne] at hext
    simp only [Bool.false_eq_true, if_false, validateExt, Option.some.injEq] at hext
    refine ⟨f, by rw [hw1]; exact hfiles, ?_⟩
    rw [hname, ← hext]
    by_cases hc : ["jpg", "jpeg", "png"].contains (strToLower s) = true
    · rw [if_pos hc, if_pos hc]
    · rw [if_neg (by simpa using hc), if_neg (by simpa using hc)]
      rfl
  · intro env p b w h
    obtain ⟨r, w1, hb, hr1, hw1⟩ := saveDrawingFile_success_body env p b w h
    obtain ⟨payload, m, b64, f, hpay, hmat, hfiles, hname, hmime⟩ :=
      saveDrawingFileBody_ok_file env p b w r w1 hb
    exact ⟨f, by rw [hw1]; exact hfiles, hname⟩
  · intro env p b w h
    obtain ⟨r, w1, hb, hr1, hw1⟩ := saveTextFile_success_body env p b w h
    obtain ⟨f, hfiles, hname, hmime, hcont⟩ := saveTextFileBody_ok_file env p b w r w1 hb
    exact ⟨f, by rw [hw1]; exact hfiles, hname⟩

/-- C6 (witness): concrete successful saves carry the forced extensions:
`note(.mp3)`, `clip.webm` from the invalid extension "mkv", `pic.jpeg` from
"jpeg", `art.png`, `memo.txt`. -/
theorem C6_final_name_extensions_witness :
    (∃ f, (saveAudioFile goodEnv (.str "data:audio/mp3;base64,AAAA") (.str "note") w0).2.files
        = w0.files ++ [f] ∧ strEndsWith (strToLower f.name) ".mp3" = true) ∧
    (∃ f, (saveVideoFile goodEnv (.str "data:video/webm;base64,AAAA") (.str "clip")
        (.str "mkv") .undef w0).2.files = w0.files ++ [f] ∧
        f.name = (JSVal.str "clip").toStr ++ "." ++
          (if ["mp4", "webm"].contains (strToLower "mkv") then strToLower "mkv" else "webm")) ∧
    (∃ f, (savePhotoFile goodEnv (.str "data:image/png;base64,AAAA") (.str "pic")
        (.str "jpeg") w0).2.files = w0.files ++ [f] ∧
        f.name = (JSVal.str "pic").toStr ++ "." ++
          (if ["jpg", "jpeg", "png"].contains (strToLower "jpeg") then strToLower "jpeg"
           else "jpg")) ∧
    (∃ f, (saveDrawingFile goodEnv (.str "data:image/png;base64,AAAA") (.str "art")
        w0).2.files = w0.files ++ [f] ∧ f.name = (JSVal.str "art").toStr ++ ".png") ∧
    (∃ f, (saveTextFile goodEnv (.str "hello") (.str "memo") w0).2.files
        = w0.files ++ [f] ∧ f.name = (JSVal.str "memo").toStr ++ ".txt") :=
  ⟨C6_final_name_extensions.1 goodEnv (.str "data:audio/mp3;base64,AAAA") (.str "note") w0
     (by decide),
   C6_final_name_extensions.2.1 goodEnv (.str "data:video/webm;base64,AAAA") (.str "clip")
     JSVal.undef w0 "mkv" (by decide),
   C6_final_name_extensions.2.2.1 goodEnv (.str "data:image/png;base64,AAAA") (.str "pic")
     w0 "jpeg" (by decide),
   C6_final_name_extensions.2.2.2.1 goodEnv (.str "data:image/png;base64,AAAA") (.str "art")
     w0 (by decide),
   C6_final_name_extensions.2.2.2.2 goodEnv (.str "hello") (.str "memo") w0 (by decide)⟩

/-- The parent-folder resolution cannot throw when folder creation works. -/
theorem getOrCreate_parent_ok (env : Env) (w : World) (hc : env.createFolderFail = false) :
    ∃ pid w1, getOrCreateFolderIdByName env (.str PARENT_FOLDER_NAME) 0 w = .ok pid w1 := by
  unfold getOrCreateFolderIdByName
  rw [show (!(JSVal.str PARENT_FOLDER_NAME).truthy || !(JSVal.str PARENT_FOLDER_NAME).isString
        || strTrim (JSVal.str PARENT_FOLDER_NAME).toStr == "") = false from by decide]
  simp only [Bool.false_eq_true, if_false]
  rcases hfind : findFolder w 0 (JSVal.str PARENT_FOLDER_NAME).toStr with _ | fid
  · simp only [hfind, hc, Bool.false_eq_true, if_false]
    exact ⟨_, _, rfl⟩
  · simp only [hfind]
    exact ⟨_, _, rfl⟩

/-- With working folder creation and no configured subfolder, the target
resolution block always succeeds. -/
theorem resolveTargetFolder_ok (env : Env) (w : World) (hc : env.createFolderFail = false)
    (hs : getSubFolderNameFromSheet env w = none) :
    ∃ tid pt tu w1, resolveTargetFolder env w = .ok (tid, pt, tu) w1 := by
  obtain ⟨pid, w1, hg⟩ := getOrCreate_parent_ok env w hc
  have hset : w1.settings = w.settings := by
    have hx := (getOrCreate_frame env (.str PARENT_FOLDER_NAME) 0 w).2.2
    rw [hg] at hx
    exact hx
  have hs1 : getSubFolderNameFromSheet env w1 = none := by
    unfold getSubFolderNameFromSheet at hs ⊢
    rw [hset]
    exact hs
  unfold resolveTargetFolder
  simp only [hg, hs1]
  exact ⟨pid, _, _, w1, rfl⟩

/-- With a valid `image/png` data URL, a truthy base name, no configured
subfolder and a healthy backend, the drawing body succeeds. -/
theorem saveDrawingFileBody_ok_of_valid (env : Env) (b : JSVal) (w : World) (p m d : String)
    (hc : env.createFolderFail = false) (hf : env.createFileFail = false)
    (hb64 : ∀ s, env.base64Ok s = true) (hbt : b.truthy = true)
    (hs : getSubFolderNameFromSheet env w = none)
    (hm : matchDrawingUrl p = some (m, d)) :
    ∃ r w1, saveDrawingFileBody env (.str p) b w = .ok r w1 := by
  have hpne : p ≠ "" := by
    intro h
    rw [h] at hm
    exact Option.noConfusion ((show matchDrawingUrl "" = none from rfl).symm.trans hm)
  obtain ⟨tid, pt, tu, w1, hres⟩ := resolveTargetFolder_ok env w hc hs
  unfold saveDrawingFileBody
  have hpt : (JSVal.str p).truthy = true := by
    simp [JSVal.truthy, hpne]
  have hcond : (!(JSVal.str p).truthy || !b.truthy) = false := by
    rw [hpt, hbt]
    rfl
  rw [hcond]
  simp only [Bool.false_eq_true, if_false, hres, jsStringOf, hm]
  rw [hb64 d]
  simp only [Bool.not_true, Bool.false_eq_true, if_false]
  rcases hcf : createFileInFolder env tid (b.toStr ++ ".png") m d w1 with ⟨fid, w2⟩ | ⟨e2, w2⟩
  · simp only [hcf]
    rcases haa : addRecordToHistorySheet env (b.toStr ++ ".png") pt tu (fileUrl fid)
        "PNG" "お絵かき" w2 with ⟨u, w3⟩ | ⟨e3, w3⟩
    · simp only [haa]
      exact ⟨_, _, rfl⟩
    · obtain ⟨w4, h4⟩ := addRecord_never_throws env (b.toStr ++ ".png") pt tu (fileUrl fid)
        "PNG" "お絵かき" w2
      rw [h4] at haa
      exact Res.noConfusion haa
  · exfalso
    unfold createFileInFolder at hcf
    rw [hf] at hcf
    simp at hcf

/-- C7: a drawing payload whose declared mime is not exactly `image/png` is
rejected — the strict pattern refuses it (second conjunct ties this to the
mime declared under the general pattern), with a failure result, no file and
no history row; with mime `image/png` and an otherwise healthy call the save
succeeds and creates the `.png` file. -/
theorem C7_drawing_requires_png (env : Env) (w : World) (b : JSVal) (p : String) :
    (matchDrawingUrl p = none → failsNoFile (saveDrawingFile env (.str p) b w) w) ∧
    (∀ m d, matchDataUrl p = some (m, d) → m ≠ "image/png" → matchDrawingUrl p = none) ∧
    (∀ m d, env.createFolderFail = false → env.createFileFail = false →
       (∀ s, env.base64Ok s = true) → b.truthy = true →
       getSubFolderNameFromSheet env w = none →
       matchDrawingUrl p = some (m, d) →
       (saveDrawingFile env (.str p) b w).1.success = true ∧
       ∃ f, (saveDrawingFile env (.str p) b w).2.files = w.files ++ [f] ∧
         f.name = b.toStr ++ ".png") := by
  refine ⟨?_, ?_, ?_⟩
  · intro hnone
    exact saveDrawingFile_err_noFile env (.str p) b w
      (saveDrawingFileBody_errs env (.str p) b w (Or.inr (Or.inr (Or.inr
        (fun s hs => by rw [← (JSVal.str.injEq p s).mp hs]; exact hnone)))))
  · intro m d hm hne
    exact matchDrawingUrl_none_of_other_mime p m d hm hne
  · intro m d hc hf hb64 hbt hs hm
    obtain ⟨r, w1, hok⟩ := saveDrawingFileBody_ok_of_valid env b w p m d hc hf hb64 hbt hs hm
    have hsucc : (saveDrawingFile env (.str p) b w).1.success = true := by
      unfold saveDrawingFile
      rw [hok]
      exact saveDrawingFileBody_ok_success env (.str p) b w r w1 hok
    refine ⟨hsucc, ?_⟩
    obtain ⟨r2, w2, hb2, hr2, hw2⟩ := saveDrawingFile_success_body env (.str p) b w hsucc
    obtain ⟨payload, m2, b642, f, hpay, hmat2, hfiles, hname, hmime⟩ :=
      saveDrawingFileBody_ok_file env (.str p) b w r2 w2 hb2
    exact ⟨f, by rw [hw2]; exact hfiles, hname⟩

/-- C7 (witness): `data:image/jpeg;base64,AAAA` is rejected with no file and
no row; `data:image/png;base64,AAAA` saves successfully as `art.png`. -/
theorem C7_drawing_requires_png_witness :
    failsNoFile (saveDrawingFile goodEnv (.str "data:image/jpeg;base64,AAAA")
      (.str "art") w0) w0 ∧
    ((saveDrawingFile goodEnv (.str "data:image/png;base64,AAAA") (.str "art")
        w0).1.success = true ∧
     ∃ f, (saveDrawingFile goodEnv (.str "data:image/png;base64,AAAA") (.str "art")
        w0).2.files = w0.files ++ [f] ∧ f.name = (JSVal.str "art").toStr ++ ".png") :=
  ⟨(C7_drawing_requires_png goodEnv w0 (.str "art") "data:image/jpeg;base64,AAAA").1
     (by decide),
   (C7_drawing_requires_png goodEnv w0 (.str "art") "data:image/png;base64,AAAA").2.2
     "image/png" "AAAA" rfl rfl (fun s => rfl) (by decide) rfl (by decide)⟩

/-- C8: the folder resolver throws whenever the name is the empty string or
not a string at all; and when a child of the requested name already exists it
returns that child's id and leaves the world unchanged — so a second call
returns the same id and no folder is ever created. -/
theorem C8_folder_resolver_idempotent (env : Env) (w : World) (name : JSVal) (parent : Nat) :
    ((name = .str "" ∨ name.isString = false) →
       ∃ e, getOrCreateFolderIdByName env name parent w = .err e w) ∧
    (∀ nm fid, name = .str nm → strTrim nm ≠ "" →
       findFolder w parent nm = some fid →
       getOrCreateFolderIdByName env name parent w = .ok fid w ∧
       getOrCreateFolderIdByName env name parent
         ((getOrCreateFolderIdByName env name parent w).world) = .ok fid w) := by
  constructor
  · intro h
    have hcond : (!name.truthy || !name.isString || strTrim name.toStr == "") = true := by
      rcases h with h | h
      · rw [h]
        rfl
      · rw [h]
        simp
    unfold getOrCreateFolderIdByName
    rw [hcond]
    simp only [if_true]
    exact ⟨_, rfl⟩
  · intro nm fid hname htrim hfind
    subst hname
    have h1 : (JSVal.str nm).truthy = true := by
      have hne : nm ≠ "" := by
        intro hx
        rw [hx] at htrim
        exact htrim rfl
      simp [JSVal.truthy, hne]
    have h3 : (strTrim (JSVal.str nm).toStr == "") = false := by
      exact beq_eq_false_iff_ne.mpr htrim
    have hcond : (!(JSVal.str nm).truthy || !(JSVal.str nm).isString
        || strTrim (JSVal.str nm).toStr == "") = false := by
      rw [h1, h3]
      rfl
    have hfind2 : findFolder w parent (JSVal.str nm).toStr = some fid := hfind
    have hfirst : getOrCreateFolderIdByName env (.str nm) parent w = .ok fid w := by
      unfold getOrCreateFolderIdByName
      rw [hcond]
      simp only [Bool.false_eq_true, if_false, hfind2]
    refine ⟨hfirst, ?_⟩
    rw [hfirst]
    exact hfirst

/-- C8 (witness): with an existing child folder "キッズ" (id 5) both lookups
return 5 and change nothing; the empty name is rejected. -/
theorem C8_folder_resolver_idempotent_witness :
    (∃ e, getOrCreateFolderIdByName goodEnv (.str "") 0
      { folders := [⟨5, "キッズ", 0⟩], files := [], nextId := 6,
        histSheet := none, settings := none } = .err e
      { folders := [⟨5, "キッズ", 0⟩], files := [], nextId := 6,
        histSheet := none, settings := none }) ∧
    (getOrCreateFolderIdByName goodEnv (.str "キッズ") 0
      { folders := [⟨5, "キッズ", 0⟩], files := [], nextId := 6,
        histSheet := none, settings := none } = .ok 5
      { folders := [⟨5, "キッズ", 0⟩], files := [], nextId := 6,
        histSheet := none, settings := none } ∧
     getOrCreateFolderIdByName goodEnv (.str "キッズ") 0
      ((getOrCreateFolderIdByName goodEnv (.str "キッズ") 0
        { folders := [⟨5, "キッズ", 0⟩], files := [], nextId := 6,
          histSheet := none, settings := none }).world) = .ok 5
      { folders := [⟨5, "キッズ", 0⟩], files := [], nextId := 6,
        histSheet := none, settings := none }) :=
  ⟨(C8_folder_resolver_idempotent goodEnv
      { folders := [⟨5, "キッズ", 0⟩], files := [], nextId := 6,
        histSheet := none, settings := none } (.str "") 0).1 (Or.inl rfl),
   (C8_folder_resolver_idempotent goodEnv
      { folders := [⟨5, "キッズ", 0⟩], files := [], nextId := 6,
        histSheet := none, settings := none } (.str "キッズ") 0).2 "キッズ" 5 rfl
     (by decide) (by decide)⟩

/-- C9: getModeSettings reads each of E1:E5 as true exactly when the cell
compares loosely equal to 1; a missing sheet or an open failure fails open to
all-true with an error annotation; when all five flags read false it writes 1
into E1 and returns audio visible with the other four flags false. -/
theorem C9_mode_settings (env : Env) (w : World) :
    (env.openSSFail = true →
       getModeSettings env w = (allModesOn (some "Exception: openById failed"), w)) ∧
    (env.openSSFail = false → w.settings = none →
       getModeSettings env w = (allModesOn (some "Sheet \"シート1\" not found."), w)) ∧
    (∀ st, env.openSSFail = false → w.settings = some st →
       (jsEqOne st.e1 || jsEqOne st.e2 || jsEqOne st.e3 || jsEqOne st.e4 || jsEqOne st.e5)
         = true →
       getModeSettings env w =
         ({ audio := jsEqOne st.e1, video := jsEqOne st.e2, photo := jsEqOne st.e3,
            drawing := jsEqOne st.e4, text := jsEqOne st.e5, error := none }, w)) ∧
    (∀ st, env.openSSFail = false → w.settings = some st →
       jsEqOne st.e1 = false → jsEqOne st.e2 = false → jsEqOne st.e3 = false →
       jsEqOne st.e4 = false → jsEqOne st.e5 = false →
       getModeSettings env w =
         ({ audio := true, video := false, photo := false, drawing := false, text := false,
            error := none },
          { w with settings := some { st with e1 := .num 1 } })) := by
  refine ⟨?_, ?_, ?_, ?_⟩
  · intro h
    unfold getModeSettings
    rw [h]
    rfl
  · intro h hset
    unfold getModeSettings
    rw [h, hset]
    rfl
  · intro st h hset hnot
    unfold getModeSettings
    rw [h, hset]
    simp only [Bool.false_eq_true, if_false]
    have hcond : (!jsEqOne st.e1 && !jsEqOne st.e2 && !jsEqOne st.e3 && !jsEqOne st.e4
        && !jsEqOne st.e5) = false := by
      cases h1 : jsEqOne st.e1 <;> cases h2 : jsEqOne st.e2 <;> cases h3 : jsEqOne st.e3 <;>
        cases h4 : jsEqOne st.e4 <;> cases h5 : jsEqOne st.e5 <;>
        first
          | rfl
          | (rw [h1, h2, h3, h4, h5] at hnot; cases hnot)
    rw [hcond]
    rfl
  · intro st h hset h1 h2 h3 h4 h5
    unfold getModeSettings
    rw [h, hset]
    simp only [Bool.false_eq_true, if_false]
    rw [h1, h2, h3, h4, h5]
    rfl

/-- C9 (witness): on a sheet whose five mode cells are all 0, getModeSettings
returns audio-only visibility and force-writes 1 into E1. -/
theorem C9_mode_settings_witness :
    getModeSettings goodEnv
      { w0 with settings := some ⟨.str "", .num 0, .num 0, .num 0, .num 0, .num 0⟩ } =
      ({ audio := true, video := false, photo := false, drawing := false, text := false,
         error := none },
       { w0 with settings := some ⟨.str "", .num 1, .num 0, .num 0, .num 0, .num 0⟩ }) :=
  (C9_mode_settings goodEnv
     { w0 with settings := some ⟨.str "", .num 0, .num 0, .num 0, .num 0, .num 0⟩ }).2.2.2
    ⟨.str "", .num 0, .num 0, .num 0, .num 0, .num 0⟩ rfl rfl rfl rfl rfl rfl rfl

/-- C10: on every successful video save the stored blob's mime type is the
`mimeType` parameter whenever that parameter (after its `video/webm` default)
is truthy; the mime declared inside the data URL is used only when the
parameter is falsy. -/
theorem C10_video_mime_param_overrides (env : Env) (p b ext mt : JSVal) (w : World)
    (h : (saveVideoFile env p b ext mt w).1.success = true) :
    ∃ payload det b64 f,
      jsStringOf p = some payload ∧ matchDataUrl payload = some (det, b64) ∧
      (saveVideoFile env p b ext mt w).2.files = w.files ++ [f] ∧
      ((if mt == JSVal.undef then JSVal.str "video/webm" else mt).truthy = true →
        f.mime = (if mt == JSVal.undef then JSVal.str "video/webm" else mt).toStr) ∧
      ((if mt == JSVal.undef then JSVal.str "video/webm" else mt).truthy = false →
        f.mime = det) := by
  obtain ⟨r, w1, hb, hr1, hw1⟩ := saveVideoFile_success_body env p b ext mt w h
  obtain ⟨payload, extV, det, b64, f, hpay, hext, hmat, hfiles, hname, hmime⟩ :=
    saveVideoFileBody_ok_file env p b ext mt w r w1 hb
  refine ⟨payload, det, b64, f, hpay, hmat, by rw [hw1]; exact hfiles, ?_, ?_⟩
  · intro ht
    rw [hmime, ht]
    rfl
  · intro ht
    rw [hmime, ht]
    rfl

/-- C10 (witness): with `mimeType="video/mp4"` the blob mime is `video/mp4`
even though the data URL declares `video/webm`; with a falsy `mimeType` the
declared `video/webm` is used. -/
theorem C10_video_mime_param_overrides_witness :
    (∃ payload det b64 f,
       jsStringOf (JSVal.str "data:video/webm;base64,AAAA") = some payload ∧
       matchDataUrl payload = some (det, b64) ∧
       (saveVideoFile goodEnv (.str "data:video/webm;base64,AAAA") (.str "clip")
         .undef (.str "video/mp4") w0).2.files = w0.files ++ [f] ∧
       ((if JSVal.str "video/mp4" == JSVal.undef then JSVal.str "video/webm"
         else JSVal.str "video/mp4").truthy = true →
         f.mime = (if JSVal.str "video/mp4" == JSVal.undef then JSVal.str "video/webm"
                   else JSVal.str "video/mp4").toStr) ∧
       ((if JSVal.str "video/mp4" == JSVal.undef then JSVal.str "video/webm"
         else JSVal.str "video/mp4").truthy = false →
         f.mime = det)) ∧
    (∃ payload det b64 f,
       jsStringOf (JSVal.str "data:video/webm;base64,AAAA") = some payload ∧
       matchDataUrl payload = some (det, b64) ∧
       (saveVideoFile goodEnv (.str "data:video/webm;base64,AAAA") (.str "clip")
         .undef (.str "") w0).2.files = w0.files ++ [f] ∧
       ((if JSVal.str "" == JSVal.undef then JSVal.str "video/webm"
         else JSVal.str "").truthy = true →
         f.mime = (if JSVal.str "" == JSVal.undef then JSVal.str "video/webm"
                   else JSVal.str "").toStr) ∧
       ((if JSVal.str "" == JSVal.undef then JSVal.str "video/webm"
         else JSVal.str "").truthy = false →
         f.mime = det)) :=
  ⟨C10_video_mime_param_overrides goodEnv (.str "data:video/webm;base64,AAAA") (.str "clip")
     JSVal.undef (.str "video/mp4") w0 (by decide),
   C10_video_mime_param_overrides goodEnv (.str "data:video/webm;base64,AAAA") (.str "clip")
     JSVal.undef (.str "") w0 (by decide)⟩
